import Mathlib

/-!
Verification development for the PythonBots simulation engine
(`pythonbots/vector.py`, `pythonbots/bot.py`, `pythonbots/arena.py`).

The engine is embedded shallowly over the real numbers: Python floats
become `ℝ`, mutable objects become records that are threaded through
explicit state-passing, `for` loops become structural recursions or
folds over index ranges, and Python's `random.uniform` calls are
replaced by explicit oracle parameters.  The module
`pythonbots/constants.py` is imported by the engine but is not part of
the sources; its constants are therefore kept abstract in a `Consts`
record and its helper `minabs` is modelled from the spec (see below).

Bots are identified inside a round by their list position: the arena
appends bots in spawn order and `bot_index_count` assigns `0, 1, 2, …`
in the same order, so the list position of a bot equals its `index`
field in any reachable round state.  Python's object-identity test
`other is bot_instance` in `Arena.scan` is modelled as equality of the
`index` fields, and the back-references `Shot.bot`, `Robot.killed` and
`Robot.killed_by` are modelled as (lists of) indices.
-/

open scoped Classical

noncomputable section

/-- 2-D vector, from `pythonbots/vector.py` (class `Vector`). -/
@[ext]
structure Vec where
  x : ℝ
  y : ℝ

instance : Inhabited Vec := ⟨⟨0, 0⟩⟩

instance : Add Vec := ⟨fun a b => ⟨a.x + b.x, a.y + b.y⟩⟩

instance : Sub Vec := ⟨fun a b => ⟨a.x - b.x, a.y - b.y⟩⟩

instance : Neg Vec := ⟨fun a => ⟨-a.x, -a.y⟩⟩

/-- `Vector.__mul__`: scalar multiplication, `Vector(other * x, other * y)`. -/
def Vec.mulS (v : Vec) (r : ℝ) : Vec := ⟨r * v.x, r * v.y⟩

/-- `Vector.__truediv__`: componentwise division by a scalar. -/
def Vec.divS (v : Vec) (r : ℝ) : Vec := ⟨v.x / r, v.y / r⟩

/-- `Vector.dot`. -/
def Vec.dot (a b : Vec) : ℝ := a.x * b.x + a.y * b.y

/-- `Vector.length`: `math.sqrt(self.dot(self))`. -/
def Vec.length (v : Vec) : ℝ := Real.sqrt (v.dot v)

/-- `Vector.unit`: guarded against the zero vector (`if l == 0: return Vector(0, 0)`). -/
def Vec.unit (v : Vec) : Vec := if v.length = 0 then ⟨0, 0⟩ else v.divS v.length

/-- `Vector.projection`: `k = self.dot(vector) / vector.length(); return k * vector.unit()`.
Total version: over `ℝ`, division by a zero length yields the junk value `0`
(the fallible behaviour is captured separately by `Vec.projectionE`). -/
def Vec.projection (a v : Vec) : Vec := (v.unit).mulS (Vec.dot a v / v.length)

/-- `Vector.angle`: `math.acos(self.dot(vector) / (self.length() * vector.length()))`.
Total version used inside the engine (see `Vec.angleE` for the fallible one). -/
def Vec.angle (a b : Vec) : ℝ := Real.arccos (Vec.dot a b / (a.length * b.length))

/-- `Vector.projection` as fallible code: Python raises `ZeroDivisionError`
when `vector.length()` is zero, modelled by `none`. -/
def Vec.projectionE (a v : Vec) : Option Vec :=
  if v.length = 0 then none else some ((v.unit).mulS (Vec.dot a v / v.length))

/-- `Vector.angle` as fallible code: Python raises `ZeroDivisionError` when
`self.length() * vector.length()` is zero, modelled by `none`.  (For nonzero
lengths the argument of `acos` lies in `[-1, 1]` by Cauchy-Schwarz, so no
domain fault is possible in exact arithmetic.) -/
def Vec.angleE (a b : Vec) : Option ℝ :=
  if a.length * b.length = 0 then none
  else some (Real.arccos (Vec.dot a b / (a.length * b.length)))

/-- `constants.PI`. -/
def cPI : ℝ := Real.pi

/-- `constants.TAU` (a full turn). -/
def cTAU : ℝ := 2 * Real.pi

/-- Python's float `%` for a positive divisor: `x - y * floor (x / y)`. -/
def fmodR (x y : ℝ) : ℝ := x - y * (⌊x / y⌋ : ℤ)

/-- `math.atan2 y x`, by the standard piecewise arctangent formula. -/
def atan2 (y x : ℝ) : ℝ :=
  if 0 < x then Real.arctan (y / x)
  else if x < 0 ∧ 0 ≤ y then Real.arctan (y / x) + Real.pi
  else if x < 0 ∧ y < 0 then Real.arctan (y / x) - Real.pi
  else if x = 0 ∧ 0 < y then Real.pi / 2
  else if x = 0 ∧ y < 0 then -(Real.pi / 2)
  else 0

/-- Modelled from the spec: the numeric configuration of
`pythonbots/constants.py`, which is imported by `bot.py` and `arena.py`
but absent from the sources.  Every constant (and every damage/heat
curve) is kept as an abstract field; theorems state the hypotheses they
need about them, and concrete instantiations are only used in witnesses
and counterexamples. -/
structure Consts where
  RADIUS : ℝ
  ARENA_WIDTH : ℝ
  ARENA_HEIGHT : ℝ
  VISION_RANGE : ℝ
  SHOT_SPEED : ℝ
  SHOT_DAMAGE : ℝ
  SHOT_COLLISION_HEAT : ℝ
  SHOT_IMPACT_VEL : ℝ
  SHOT_IMPACT_ANG : ℝ
  MAX_HEALTH : ℝ
  NORMAL_TEMPERATURE : ℝ
  MAX_TEMPERATURE : ℝ
  DANGEROUS_TEMPERATURE : ℝ
  TEMPERATURE_DAMAGE : ℝ
  COOLING_RATE : ℝ
  MAX_ACCELERATION : ℝ
  MAX_TURN_RATE : ℝ
  MAX_CANNON_TURN_RATE : ℝ
  MIN_SCAN_ARC : ℝ
  EXPLOSION_IMPACT : ℝ
  HEAT_PER_SHOT : ℝ
  FRICTION : ℝ
  ANGULAR_FRICTION : ℝ
  wall_collision_damage : ℝ → ℝ
  wall_collision_heat : ℝ → ℝ
  bot_collision_damage : ℝ → ℝ
  bot_collision_heat : ℝ → ℝ
  velocity_heat : ℝ → ℝ

/-- Sign of a real number (`-1`, `0` or `1`). -/
def rsign (x : ℝ) : ℝ := if x < 0 then -1 else if 0 < x then 1 else 0

/-- Modelled from the spec: `constants.minabs`, used by `Robot.update` to
drain the actuator accumulators, is absent from the sources together
with the rest of `constants.py`.  The spec defines the applied amount
as `sign(pending) * min(|pending|, max_rate_for_that_actuator)`. -/
def minabs (a m : ℝ) : ℝ := rsign a * min |a| m

/-- State of one robot, from `pythonbots/bot.py` (class `Robot`).
`killed` and `killed_by` store bot indices instead of object references. -/
@[ext]
structure Robot where
  position : Vec
  velocity : Vec
  direction : ℝ
  cannon : ℝ
  scan_arc : ℝ
  angular_velocity : ℝ
  health : ℝ
  temperature : ℝ
  index : ℤ
  active : Bool
  has_shot : Bool
  acceleration : ℝ
  angular_acceleration : ℝ
  cannon_acceleration : ℝ
  target_arc : ℝ
  shots : ℕ
  killed : List ℤ
  killed_by : Option ℤ

instance : Inhabited Robot :=
  ⟨⟨⟨0, 0⟩, ⟨0, 0⟩, 0, 0, 0, 0, 0, 0, 0, false, false, 0, 0, 0, 0, 0, [], none⟩⟩

/-- A projectile, from `pythonbots/arena.py` (class `Shot`); `owner` is the
list position of the bot that fired it (`Shot.bot` in the source). -/
@[ext]
structure Shot where
  owner : ℕ
  position : Vec
  velocity : Vec

/-- The arena state, from `pythonbots/arena.py` (class `Arena`). -/
@[ext]
structure ArenaSt where
  bots : List Robot
  shots : List Shot
  ticks : ℕ

/-- One command issued by a strategy through the `Handler` mutating
interface (`Handler.accelerate/turn/rotate_cannon/set_arc/shoot`).
Read-only accessors have no state effect and are not represented. -/
inductive RCmd where
  | accelerate (d : ℝ)
  | turn (d : ℝ)
  | rotateCannon (d : ℝ)
  | setArc (w : ℝ)
  | shoot

/-- `Shot.__init__`: velocity along `direction + cannon` at `SHOT_SPEED`, spawn
at `RADIUS * 1.1` ahead of the firing bot. -/
def mkShot (k : Consts) (ownerPos : ℕ) (b : Robot) : Shot :=
  { owner := ownerPos
    velocity :=
      (Vec.mk (Real.cos (b.direction + b.cannon)) (Real.sin (b.direction + b.cannon))).mulS
        k.SHOT_SPEED
    position :=
      b.position +
        (Vec.mk (Real.cos (b.direction + b.cannon)) (Real.sin (b.direction + b.cannon))).mulS
          (k.RADIUS * (11 / 10)) }

/-- Effect of one `Handler` command on the commanding bot and the arena's
shot list (`Handler.accelerate/turn/rotate_cannon/set_arc/shoot`). -/
def execCmd (k : Consts) (i : ℕ) (st : Robot × List Shot) (c : RCmd) : Robot × List Shot :=
  match c with
  | .accelerate d => ({ st.1 with acceleration := st.1.acceleration + d }, st.2)
  | .turn d => ({ st.1 with angular_acceleration := st.1.angular_acceleration + d }, st.2)
  | .rotateCannon d =>
      ({ st.1 with cannon_acceleration := st.1.cannon_acceleration + d }, st.2)
  | .setArc w => ({ st.1 with target_arc := w }, st.2)
  | .shoot =>
      if st.1.has_shot then st
      else
        ({ st.1 with
            shots := st.1.shots + 1
            temperature := st.1.temperature + k.HEAT_PER_SHOT
            has_shot := true },
          st.2 ++ [mkShot k i st.1])

/-- Run the sequence of commands a strategy issued during one tick. -/
def runCmds (k : Consts) (i : ℕ) (b : Robot) (sh : List Shot) (cs : List RCmd) :
    Robot × List Shot :=
  cs.foldl (execCmd k i) (b, sh)

/-- A strategy: given the current bot list, shot list and the invoked bot's
list position, the commands it issues this tick.  Since the `Handler`
read accessors are functions of exactly this data, every Python strategy's
per-tick state effect is the effect of some `Strat`. -/
def Strat : Type := List Robot → List Shot → ℕ → List RCmd

/-- The strategy that issues no commands. -/
def noopStrat : Strat := fun _ _ _ => []

/-- `Robot.update`, first block: integrate translation and rotation with
living/dead friction, and let a dead bot's cannon spin with its hull. -/
def stepIntegrate (k : Consts) (b : Robot) : Robot :=
  let b1 := { b with position := b.position + b.velocity }
  let b2 := { b1 with velocity := b1.velocity.mulS (if b1.active then k.FRICTION else 0.8) }
  let b3 := { b2 with direction := b2.direction + b2.angular_velocity }
  let b4 :=
    { b3 with
        angular_velocity := b3.angular_velocity * (if b3.active then k.ANGULAR_FRICTION else 0.9) }
  if b4.active then b4 else { b4 with cannon := b4.cannon + b4.angular_velocity * 2 }

/-- `Robot.update`, accumulator block: drain the three rate-limited actuator
accumulators through `minabs`. -/
def stepDrain (k : Consts) (b : Robot) : Robot :=
  let aApp := minabs b.acceleration k.MAX_ACCELERATION
  let b1 :=
    { b with
        velocity :=
          b.velocity + (Vec.mk (Real.cos b.direction) (Real.sin b.direction)).mulS aApp
        acceleration := b.acceleration - aApp }
  let tApp := minabs b1.angular_acceleration k.MAX_TURN_RATE
  let b2 :=
    { b1 with
        angular_velocity := b1.angular_velocity + tApp
        angular_acceleration := b1.angular_acceleration - tApp }
  let cApp := minabs b2.cannon_acceleration k.MAX_CANNON_TURN_RATE
  { b2 with
      cannon := b2.cannon + cApp
      cannon_acceleration := b2.cannon_acceleration - cApp }

/-- `Robot.update`: `self.scan_arc = self.target_arc`. -/
def stepArc (b : Robot) : Robot := { b with scan_arc := b.target_arc }

/-- `Robot.update`, death check; `r` stands for the value drawn by
`random.uniform(-PI / 2, PI / 2)`. -/
def stepDeath (k : Consts) (r : ℝ) (b : Robot) : Robot :=
  if b.health ≤ 0 ∧ b.active then
    { b with
        active := false
        health := 0
        velocity := b.velocity.mulS k.EXPLOSION_IMPACT
        angular_velocity := r
        temperature := k.MAX_TEMPERATURE }
  else b

/-- `Robot.update`, temperature block: overheat damage, cooling, movement
heat, upper clamp. -/
def stepThermal (k : Consts) (b : Robot) : Robot :=
  let b1 :=
    if k.DANGEROUS_TEMPERATURE ≤ b.temperature ∧ b.active then
      { b with health := b.health - k.TEMPERATURE_DAMAGE }
    else b
  let b2 :=
    if k.NORMAL_TEMPERATURE < b1.temperature then
      { b1 with temperature := b1.temperature - k.COOLING_RATE }
    else b1
  let b3 := { b2 with temperature := b2.temperature + k.velocity_heat b2.velocity.length }
  { b3 with temperature := min b3.temperature k.MAX_TEMPERATURE }

/-- `Robot.update`, x-axis wall handling: damage and heat from `handle_wall`,
then clamp `position.x` to the boundary and invert `velocity.x`. -/
def stepWallX (k : Consts) (b : Robot) : Robot :=
  if b.position.x < k.RADIUS then
    let b1 :=
      { b with
          health := b.health - k.wall_collision_damage b.velocity.length
          temperature := b.temperature + k.wall_collision_heat b.velocity.length }
    { b1 with
        position := ⟨k.RADIUS, b1.position.y⟩
        velocity := ⟨b1.velocity.x * (-1), b1.velocity.y⟩ }
  else if k.ARENA_WIDTH - k.RADIUS < b.position.x then
    let b1 :=
      { b with
          health := b.health - k.wall_collision_damage b.velocity.length
          temperature := b.temperature + k.wall_collision_heat b.velocity.length }
    { b1 with
        position := ⟨k.ARENA_WIDTH - k.RADIUS, b1.position.y⟩
        velocity := ⟨b1.velocity.x * (-1), b1.velocity.y⟩ }
  else b

/-- `Robot.update`, y-axis wall handling. -/
def stepWallY (k : Consts) (b : Robot) : Robot :=
  if b.position.y < k.RADIUS then
    let b1 :=
      { b with
          health := b.health - k.wall_collision_damage b.velocity.length
          temperature := b.temperature + k.wall_collision_heat b.velocity.length }
    { b1 with
        position := ⟨b1.position.x, k.RADIUS⟩
        velocity := ⟨b1.velocity.x, b1.velocity.y * (-1)⟩ }
  else if k.ARENA_HEIGHT - k.RADIUS < b.position.y then
    let b1 :=
      { b with
          health := b.health - k.wall_collision_damage b.velocity.length
          temperature := b.temperature + k.wall_collision_heat b.velocity.length }
    { b1 with
        position := ⟨b1.position.x, k.ARENA_HEIGHT - k.RADIUS⟩
        velocity := ⟨b1.velocity.x, b1.velocity.y * (-1)⟩ }
  else b

/-- Python `max(min(target, TAU), MIN_SCAN_ARC)` clamping the requested
scan arc. -/
def clampArc (k : Consts) (w : ℝ) : ℝ := max (min w cTAU) k.MIN_SCAN_ARC

/-- `Robot.update`, final block: if the bot is (still) active, invoke the
player function (`invoke` abstracts `self.func(self.handler)`), then clamp
the requested scan arc and rearm the weapon. -/
def stepStrategy (k : Consts) (invoke : Robot → List Shot → Robot × List Shot)
    (st : Robot × List Shot) : Robot × List Shot :=
  if st.1.active then
    let st1 := invoke st.1 st.2
    ({ st1.1 with target_arc := clampArc k st1.1.target_arc, has_shot := false }, st1.2)
  else st

/-- `Robot.update` as the composition of its blocks, in source order. -/
def Robot.update (k : Consts) (invoke : Robot → List Shot → Robot × List Shot) (r : ℝ)
    (b : Robot) (sh : List Shot) : Robot × List Shot :=
  stepStrategy k invoke
    (stepWallY k (stepWallX k (stepThermal k (stepDeath k r (stepArc (stepDrain k
      (stepIntegrate k b)))))), sh)

/-- The angle between the scanner's cannon facing and the vector to the
target, from `Arena.scan`. -/
def scanAngle (s t : Robot) : ℝ :=
  Vec.angle (Vec.mk (Real.cos (s.direction + s.cannon)) (Real.sin (s.direction + s.cannon)))
    (t.position - s.position)

/-- The acceptance half-width of `Arena.scan`:
`(scan_arc / 2 + atan2(RADIUS, distance)) % PI`. -/
def scanMaxAngle (k : Consts) (s t : Robot) : ℝ :=
  fmodR (s.scan_arc / 2 + atan2 k.RADIUS ((s.position - t.position).length)) cPI

/-- Body of the `for other in self.bots` loop of `Arena.scan`, carrying the
running `(nearest, found_index)` state.  The object-identity test
`other is bot_instance` is modelled by comparing `index` fields. -/
def scanGo (k : Consts) (s : Robot) : List Robot → ℝ × ℤ → ℝ × ℤ
  | [], st => st
  | other :: rest, (nearest, found) =>
      if other.index = s.index ∨ other.active = false then scanGo k s rest (nearest, found)
      else
        let d := (s.position - other.position).length
        if d - k.RADIUS ≤ k.VISION_RANGE ∧ d < nearest then
          if scanAngle s other ≤ scanMaxAngle k s other then
            scanGo k s rest (d, other.index)
          else scanGo k s rest (nearest, found)
        else scanGo k s rest (nearest, found)

/-- `Arena.scan`: fold the loop body over the bot list starting from
`(VISION_RANGE, -1)`. -/
def scan (k : Consts) (bots : List Robot) (s : Robot) : ℝ × ℤ :=
  scanGo k s bots (k.VISION_RANGE, -1)

/-- `Arena.update`, projectile phase: a shot outside the arena rectangle is
removed, otherwise it advances by its velocity. -/
def shotsPhase (k : Consts) (shots : List Shot) : List Shot :=
  shots.filterMap fun s =>
    if 0 ≤ s.position.x ∧ s.position.x ≤ k.ARENA_WIDTH ∧ 0 ≤ s.position.y ∧
        s.position.y ≤ k.ARENA_HEIGHT then
      some { s with position := s.position + s.velocity }
    else none

/-- One iteration of the `for c in self.bots` collision loop inside a bot
`b = bots[i]`'s slot of `Arena.update`: resolve a body collision between
`bots[i]` and `bots[j]` (skipped when `i = j`, mirroring `c is b`). -/
def pairResolve (k : Consts) (i j : ℕ) (bots : List Robot) : List Robot :=
  if i = j then bots
  else
    let b := bots.getD i default
    let c := bots.getD j default
    let d := (b.position - c.position).length
    if d ≠ 0 ∧ d ≤ k.RADIUS * 2 then
      let cvec := b.position - c.position
      let transB := b.velocity.projection cvec
      let transC := c.velocity.projection cvec
      let rr := (cvec.unit).mulS (k.RADIUS * 2) - cvec
      let b1 := { b with position := b.position + rr.divS 2 }
      let c1 := { c with position := c.position - rr.divS 2 }
      let b2 := { b1 with velocity := b1.velocity + (transC - transB) }
      let c2 := { c1 with velocity := c1.velocity + (transB - transC) }
      let b3 := { b2 with angular_velocity := b2.angular_velocity - c2.angular_velocity * 2 }
      let c3 := { c2 with angular_velocity := c2.angular_velocity - b3.angular_velocity * 2 }
      let dmg := k.bot_collision_damage ((b3.velocity - c3.velocity).length)
      let b4 := if b3.active then { b3 with health := b3.health - dmg } else b3
      let c4 := if c3.active then { c3 with health := c3.health - dmg } else c3
      let heat := k.bot_collision_heat ((b4.velocity - c4.velocity).length)
      let b5 := { b4 with temperature := b4.temperature + heat }
      let c5 := { c4 with temperature := c4.temperature + heat }
      (bots.set i b5).set j c5
    else bots

/-- Replace the bot at position `i` by `f` of it. -/
def updateAt (i : ℕ) (f : Robot → Robot) (l : List Robot) : List Robot :=
  l.set i (f (l.getD i default))

/-- Resolution of one projectile contact on `bots[i]`, from the shot loop of
`Arena.update`: damage only if active, heat and momentum unconditionally,
angular jostle for corpses, kill credit if the hit was lethal. -/
def processHit (k : Consts) (i : ℕ) (bots : List Robot) (s : Shot) : List Robot :=
  let b := bots.getD i default
  let b1 := if b.active then { b with health := b.health - k.SHOT_DAMAGE } else b
  let b2 := { b1 with temperature := b1.temperature + k.SHOT_COLLISION_HEAT }
  let b3 := { b2 with velocity := b2.velocity + s.velocity.mulS k.SHOT_IMPACT_VEL }
  if b3.active = false then
    bots.set i
      { b3 with
          angular_velocity := b3.angular_velocity + s.velocity.length * k.SHOT_IMPACT_ANG }
  else if b3.health ≤ 0 then
    updateAt s.owner (fun o => { o with killed := o.killed ++ [b3.index] })
      (bots.set i { b3 with killed_by := some (bots.getD s.owner default).index })
  else bots.set i b3

/-- The `for shot in list(self.shots)` loop of a bot's slot in
`Arena.update`: each shot within `RADIUS` of `bots[i]` is resolved through
`processHit` and removed; the others survive in order. -/
def shotLoop (k : Consts) (i : ℕ) (bots : List Robot) : List Shot → List Robot × List Shot
  | [] => (bots, [])
  | s :: rest =>
      let b := bots.getD i default
      if (s.position - b.position).length < k.RADIUS then
        let res := shotLoop k i (processHit k i bots s) rest
        (res.1, res.2)
      else
        let res := shotLoop k i bots rest
        (res.1, s :: res.2)

/-- The update part of bot `i`'s slot in `Arena.update`: run `bots[i].update()`,
whose strategy invocation sees the partially updated self inside the live
bot list and may append shots. -/
def slotBotUpdate (k : Consts) (strat : Strat) (r : ℝ) (st : List Robot × List Shot)
    (i : ℕ) : List Robot × List Shot :=
  let bots := st.1
  let b := bots.getD i default
  let invoke := fun b' sh' => runCmds k i b' sh' (strat (bots.set i b') sh' i)
  let res := Robot.update k invoke r b st.2
  (bots.set i res.1, res.2)

/-- The body-collision part of bot `i`'s slot: the `for c in self.bots` loop. -/
def slotCollide (k : Consts) (i : ℕ) (bots : List Robot) : List Robot :=
  (List.range bots.length).foldl (fun bs j => pairResolve k i j bs) bots

/-- One full slot of the `for b in self.bots` loop of `Arena.update`:
bot `i`'s own update, then its body collisions, then its shot contacts. -/
def slotUpdate (k : Consts) (strat : Strat) (r : ℝ) (st : List Robot × List Shot)
    (i : ℕ) : List Robot × List Shot :=
  let st1 := slotBotUpdate k strat r st i
  let bots2 := slotCollide k i st1.1
  shotLoop k i bots2 st1.2

/-- The robot phase of `Arena.update`: all slots in list (spawn) order. -/
def botsPhase (k : Consts) (strat : Strat) (rng : ℕ → ℝ) (bots : List Robot)
    (sh : List Shot) : List Robot × List Shot :=
  (List.range bots.length).foldl (fun st i => slotUpdate k strat (rng i) st i) (bots, sh)

/-- `Arena.update`: one full tick.  `rng i` is the death-jitter oracle for
the bot updated in slot `i`. -/
def arenaUpdate (k : Consts) (strat : Strat) (rng : ℕ → ℝ) (st : ArenaSt) : ArenaSt :=
  let sh1 := shotsPhase k st.shots
  let res := botsPhase k strat rng st.bots sh1
  { bots := res.1, shots := res.2, ticks := st.ticks + 1 }

/-- The phased schedule the spec describes: the projectile phase, then every
bot's own update in spawn order, and only then every bot's collision
resolution (body collisions and shot contacts) in the same order. -/
def phasedUpdate (k : Consts) (strat : Strat) (rng : ℕ → ℝ) (st : ArenaSt) : ArenaSt :=
  let sh1 := shotsPhase k st.shots
  let p1 :=
    (List.range st.bots.length).foldl
      (fun st2 i => slotBotUpdate k strat (rng i) st2 i) (st.bots, sh1)
  let p2 :=
    (List.range st.bots.length).foldl
      (fun st2 i => shotLoop k i (slotCollide k i st2.1) st2.2) p1
  { bots := p2.1, shots := p2.2, ticks := st.ticks + 1 }

/-- The candidate predicate exactly as the spec sentence states it: `t` is
active, not the scanner, within `d - RADIUS ≤ VISION_RANGE`, and inside the
angular acceptance half-width. -/
def candBase (k : Consts) (s t : Robot) : Prop :=
  t.active = true ∧ t.index ≠ s.index ∧
    (s.position - t.position).length - k.RADIUS ≤ k.VISION_RANGE ∧
    scanAngle s t ≤ scanMaxAngle k s t

/-- First strict minimum of a list of (distance, index) pairs: an earlier
entry is only displaced by a strictly smaller later one. -/
def firstMin : List (ℝ × ℤ) → Option (ℝ × ℤ)
  | [] => none
  | c :: rest =>
      match firstMin rest with
      | none => some c
      | some m => if m.1 < c.1 then some m else some c

/-- The (distance, index) pairs of the candidates in robot-list order,
with the candidate predicate taken verbatim from the claim. -/
def candListC1 (k : Consts) (s : Robot) : List Robot → List (ℝ × ℤ)
  | [] => []
  | t :: rest =>
      if candBase k s t then
        ((s.position - t.position).length, t.index) :: candListC1 k s rest
      else candListC1 k s rest

/-- The scan result claim C1 describes: the nearest candidate under
`candBase`, first-encountered on ties, and `(VISION_RANGE, -1)` when there
is no candidate. -/
def scanSpecC1 (k : Consts) (bots : List Robot) (s : Robot) : ℝ × ℤ :=
  (firstMin (candListC1 k s bots)).getD (k.VISION_RANGE, -1)

/-- Declarative description of a scan result `res` against the candidate
predicate amended with the strict `distance < VISION_RANGE` filter: either
no amended candidate exists and `res` is the sentinel pair, or `res` is the
distance and index of the first-encountered closest amended candidate. -/
def scanSpecA (k : Consts) (bots : List Robot) (s : Robot) (res : ℝ × ℤ) : Prop :=
  (res = (k.VISION_RANGE, -1) ∧
      ∀ t ∈ bots, candBase k s t → ¬((s.position - t.position).length < k.VISION_RANGE)) ∨
    ∃ l1 t l2,
      bots = l1 ++ t :: l2 ∧ candBase k s t ∧
        (s.position - t.position).length < k.VISION_RANGE ∧
          res = ((s.position - t.position).length, t.index) ∧
            (∀ u ∈ l1, candBase k s u → (s.position - u.position).length < k.VISION_RANGE →
                (s.position - t.position).length < (s.position - u.position).length) ∧
              ∀ u ∈ bots, candBase k s u → (s.position - u.position).length < k.VISION_RANGE →
                  (s.position - t.position).length ≤ (s.position - u.position).length

lemma fmodR_eq_mul_fract (x y : ℝ) (hy : y ≠ 0) : fmodR x y = y * Int.fract (x / y) := by
  unfold fmodR Int.fract
  field_simp

lemma fmodR_nonneg (x y : ℝ) (hy : 0 < y) : 0 ≤ fmodR x y := by
  rw [fmodR_eq_mul_fract x y hy.ne']
  exact mul_nonneg hy.le (Int.fract_nonneg _)

lemma Vec.add_def (a b : Vec) : a + b = ⟨a.x + b.x, a.y + b.y⟩ := rfl

lemma Vec.sub_def (a b : Vec) : a - b = ⟨a.x - b.x, a.y - b.y⟩ := rfl

lemma Vec.neg_def (a : Vec) : -a = ⟨-a.x, -a.y⟩ := rfl

lemma Vec.add_zero' (v : Vec) : v + ⟨0, 0⟩ = v := by
  rw [Vec.add_def]
  ext <;> simp

lemma Vec.mulS_zero (v : Vec) : v.mulS 0 = ⟨0, 0⟩ := by
  simp [Vec.mulS]

lemma Vec.zero_mulS (r : ℝ) : (Vec.mk 0 0).mulS r = ⟨0, 0⟩ := by
  simp [Vec.mulS]

lemma Vec.length_zero : (Vec.mk 0 0).length = 0 := by
  simp [Vec.length, Vec.dot]

lemma Vec.length_x (x : ℝ) : (Vec.mk x 0).length = |x| := by
  simp [Vec.length, Vec.dot, Real.sqrt_mul_self_eq_abs]

lemma minabs_zero (m : ℝ) : minabs 0 m = 0 := by
  simp [minabs, rsign]

lemma minabs_of_nonneg {p m : ℝ} (hp : 0 ≤ p) (hm : 0 ≤ m) : minabs p m = min p m := by
  rcases hp.eq_or_lt with h | h
  · simp [minabs, rsign, ← h, min_eq_left hm]
  · have h1 : rsign p = 1 := by simp [rsign, not_lt.mpr hp, h]
    rw [minabs, h1, abs_of_nonneg hp, one_mul]

/-- Loop invariant of `Arena.scan`: starting from running state `(n, f)`,
the fold either returns `(n, f)` with no candidate closer than `n`, or the
first-encountered closest candidate strictly closer than `n`. -/
lemma scanGo_spec (k : Consts) (s : Robot) (l : List Robot) :
    ∀ (n : ℝ) (f : ℤ),
      (scanGo k s l (n, f) = (n, f) ∧
          ∀ t ∈ l, candBase k s t → ¬((s.position - t.position).length < n)) ∨
        ∃ l1 t l2,
          l = l1 ++ t :: l2 ∧ candBase k s t ∧
            (s.position - t.position).length < n ∧
              scanGo k s l (n, f) = ((s.position - t.position).length, t.index) ∧
                (∀ u ∈ l1, candBase k s u → (s.position - u.position).length < n →
                    (s.position - t.position).length < (s.position - u.position).length) ∧
                  ∀ u ∈ l, candBase k s u → (s.position - u.position).length < n →
                      (s.position - t.position).length ≤ (s.position - u.position).length := by
  induction l with
  | nil => intro n f; left; exact ⟨rfl, by simp⟩
  | cons hd tl ih =>
      intro n f
      by_cases hskip : hd.index = s.index ∨ hd.active = false
      · have hgo : scanGo k s (hd :: tl) (n, f) = scanGo k s tl (n, f) := by
          simp only [scanGo]
          rw [if_pos hskip]
        have hcand : ¬candBase k s hd := by
          rcases hskip with h | h
          · intro hc; exact hc.2.1 h
          · intro hc; rw [hc.1] at h; cases h
        rcases ih n f with ⟨heq, hall⟩ | ⟨l1, t, l2, hdec, hct, hlt, heq, hl1, hall⟩
        · left
          refine ⟨by rw [hgo]; exact heq, ?_⟩
          intro t ht hc
          rcases List.mem_cons.mp ht with rfl | ht'
          · exact absurd hc hcand
          · exact hall t ht' hc
        · right
          refine ⟨hd :: l1, t, l2, by rw [hdec]; rfl, hct, hlt,
            by rw [hgo]; exact heq, ?_, ?_⟩
          · intro u hu hc
            rcases List.mem_cons.mp hu with rfl | hu'
            · exact absurd hc hcand
            · exact hl1 u hu' hc
          · intro u hu hc hlt2
            rcases List.mem_cons.mp hu with rfl | hu'
            · exact absurd hc hcand
            · exact hall u hu' hc hlt2
      · push_neg at hskip
        have hact : hd.active = true := by
          rcases hskip with ⟨_, h2⟩
          exact Bool.ne_false_iff.mp h2
        by_cases hrng : (s.position - hd.position).length - k.RADIUS ≤ k.VISION_RANGE ∧
            (s.position - hd.position).length < n
        · by_cases hang : scanAngle s hd ≤ scanMaxAngle k s hd
          · -- accepted: recurse with the new running state
            have hgo : scanGo k s (hd :: tl) (n, f) =
                scanGo k s tl ((s.position - hd.position).length, hd.index) := by
              simp only [scanGo]
              rw [if_neg (not_or.mpr hskip)]
              rw [if_pos hrng, if_pos hang]
            have hcand : candBase k s hd := ⟨hact, hskip.1, hrng.1, hang⟩
            rcases ih ((s.position - hd.position).length) hd.index with
                ⟨heq, hall⟩ | ⟨l1, t, l2, hdec, hct, hlt, heq, hl1, hall⟩
            · right
              refine ⟨[], hd, tl, rfl, hcand, hrng.2, by rw [hgo]; exact heq, by simp, ?_⟩
              intro u hu hc hlt2
              rcases List.mem_cons.mp hu with rfl | hu'
              · exact le_refl _
              · exact le_of_not_lt (hall u hu' hc)
            · right
              refine ⟨hd :: l1, t, l2, by rw [hdec]; rfl, hct,
                lt_trans hlt hrng.2, by rw [hgo]; exact heq, ?_, ?_⟩
              · intro u hu hc hlt2
                rcases List.mem_cons.mp hu with rfl | hu'
                · exact hlt
                · by_cases h2 : (s.position - u.position).length <
                      (s.position - hd.position).length
                  · exact hl1 u hu' hc h2
                  · exact lt_of_lt_of_le hlt (le_of_not_lt h2)
              · intro u hu hc hlt2
                rcases List.mem_cons.mp hu with rfl | hu'
                · exact hlt.le
                · by_cases h2 : (s.position - u.position).length <
                      (s.position - hd.position).length
                  · exact hall u hu' hc h2
                  · exact le_trans hlt.le (le_of_not_lt h2)
          · -- angle check failed
            have hgo : scanGo k s (hd :: tl) (n, f) = scanGo k s tl (n, f) := by
              simp only [scanGo]
              rw [if_neg (not_or.mpr hskip)]
              rw [if_pos hrng, if_neg hang]
            have hcand : ¬candBase k s hd := fun hc => hang hc.2.2.2
            rcases ih n f with ⟨heq, hall⟩ | ⟨l1, t, l2, hdec, hct, hlt, heq, hl1, hall⟩
            · left
              refine ⟨by rw [hgo]; exact heq, ?_⟩
              intro t ht hc
              rcases List.mem_cons.mp ht with rfl | ht'
              · exact absurd hc hcand
              · exact hall t ht' hc
            · right
              refine ⟨hd :: l1, t, l2, by rw [hdec]; rfl, hct, hlt,
                by rw [hgo]; exact heq, ?_, ?_⟩
              · intro u hu hc
                rcases List.mem_cons.mp hu with rfl | hu'
                · exact absurd hc hcand
                · exact hl1 u hu' hc
              · intro u hu hc hlt2
                rcases List.mem_cons.mp hu with rfl | hu'
                · exact absurd hc hcand
                · exact hall u hu' hc hlt2
        · -- range-or-threshold check failed
          have hgo : scanGo k s (hd :: tl) (n, f) = scanGo k s tl (n, f) := by
            simp only [scanGo]
            rw [if_neg (not_or.mpr hskip)]
            rw [if_neg hrng]
          have hnot : ∀ hc : candBase k s hd, ¬((s.position - hd.position).length < n) := by
            intro hc hlt
            exact hrng ⟨hc.2.2.1, hlt⟩
          rcases ih n f with ⟨heq, hall⟩ | ⟨l1, t, l2, hdec, hct, hlt, heq, hl1, hall⟩
          · left
            refine ⟨by rw [hgo]; exact heq, ?_⟩
            intro t ht hc
            rcases List.mem_cons.mp ht with rfl | ht'
            · exact hnot hc
            · exact hall t ht' hc
          · right
            refine ⟨hd :: l1, t, l2, by rw [hdec]; rfl, hct, hlt,
              by rw [hgo]; exact heq, ?_, ?_⟩
            · intro u hu hc hlt2
              rcases List.mem_cons.mp hu with rfl | hu'
              · exact absurd hlt2 (hnot hc)
              · exact hl1 u hu' hc hlt2
            · intro u hu hc hlt2
              rcases List.mem_cons.mp hu with rfl | hu'
              · exact absurd hlt2 (hnot hc)
              · exact hall u hu' hc hlt2

lemma Vec.length_eval (x y d : ℝ) (hd : 0 ≤ d) (h : x * x + y * y = d * d) :
    (Vec.mk x y).length = d := by
  rw [Vec.length, Vec.dot]
  show Real.sqrt (x * x + y * y) = d
  rw [h, Real.sqrt_mul_self hd]

/-- A concrete configuration used only inside witnesses and counterexamples.
Since `constants.py` is not part of the sources, any assignment compatible
with the spec's description of the constants may be used. -/
def Kc : Consts where
  RADIUS := 10
  ARENA_WIDTH := 1000
  ARENA_HEIGHT := 1000
  VISION_RANGE := 100
  SHOT_SPEED := 20
  SHOT_DAMAGE := 10
  SHOT_COLLISION_HEAT := 1 / 10
  SHOT_IMPACT_VEL := 1 / 2
  SHOT_IMPACT_ANG := 1 / 100
  MAX_HEALTH := 100
  NORMAL_TEMPERATURE := 50
  MAX_TEMPERATURE := 150
  DANGEROUS_TEMPERATURE := 100
  TEMPERATURE_DAMAGE := 1
  COOLING_RATE := 1
  MAX_ACCELERATION := 2
  MAX_TURN_RATE := 1 / 5
  MAX_CANNON_TURN_RATE := 1 / 2
  MIN_SCAN_ARC := 1 / 10
  EXPLOSION_IMPACT := 1 / 2
  HEAT_PER_SHOT := 5
  FRICTION := 9 / 10
  ANGULAR_FRICTION := 9 / 10
  wall_collision_damage := fun sp => sp / 5
  wall_collision_heat := fun sp => sp / 5
  bot_collision_damage := fun sp => sp / 5
  bot_collision_heat := fun sp => sp / 5
  velocity_heat := fun sp => sp / 100

/-- A stationary robot with zeroed motion state, used in concrete scenarios. -/
def calmBot (pos : Vec) (t h arc : ℝ) (idx : ℤ) : Robot where
  position := pos
  velocity := ⟨0, 0⟩
  direction := 0
  cannon := 0
  scan_arc := arc
  angular_velocity := 0
  health := h
  temperature := t
  index := idx
  active := true
  has_shot := false
  acceleration := 0
  angular_acceleration := 0
  cannon_acceleration := 0
  target_arc := arc
  shots := 0
  killed := []
  killed_by := none

/-- Scanner of the scenario refuting the claimed scan candidate criterion. -/
def c1S : Robot := calmBot ⟨100, 100⟩ 50 100 (1 / 2) 0

/-- Target of that scenario, at distance `105 = VISION_RANGE + RADIUS / 2`
straight ahead of the scanner's cannon. -/
def c1T : Robot := calmBot ⟨205, 100⟩ 50 100 (1 / 2) 1

/-- C1 (amended).  `Arena.scan` behaves as claim C1 states only after adding
the strict filter `distance < VISION_RANGE` to the candidate criterion:
among the robots that are active, distinct from the scanner, inside the
claimed range window, inside the angular acceptance half-width, and whose
distance is strictly below `VISION_RANGE`, the scan returns the distance and
index of the closest one (first encountered in robot-list order on ties),
and returns `(VISION_RANGE, -1)` when no such robot exists. -/
theorem c1_scan_amended (k : Consts) (bots : List Robot) (s : Robot) :
    scanSpecA k bots s (scan k bots s) := by
  rcases scanGo_spec k s bots k.VISION_RANGE (-1) with
      ⟨heq, hall⟩ | ⟨l1, t, l2, hdec, hct, hlt, heq, hl1, hall⟩
  · left; exact ⟨heq, hall⟩
  · right; exact ⟨l1, t, l2, hdec, hct, hlt, heq, hl1, hall⟩

/-- C1 (counterexample).  With the concrete configuration `Kc`, a target
straight ahead of the scanner at distance `105` satisfies the claim's
candidate criterion (`105 - RADIUS = 95 ≤ VISION_RANGE = 100` and the angle
is `0`), so the claimed result is `(105, 1)`; but `Arena.scan` initialises
its running minimum at `VISION_RANGE` and only accepts strictly closer
robots, so the code returns `(100, -1)`. -/
theorem c1_counterexample :
    scan Kc [c1S, c1T] c1S = (100, -1) ∧
      scanSpecC1 Kc [c1S, c1T] c1S = (105, 1) ∧
        scan Kc [c1S, c1T] c1S ≠ scanSpecC1 Kc [c1S, c1T] c1S := by
  have hpos : c1S.position - c1T.position = Vec.mk (-105) 0 := by
    show Vec.mk 100 100 - Vec.mk 205 100 = Vec.mk (-105) 0
    rw [Vec.sub_def]
    norm_num
  have hlen : (c1S.position - c1T.position).length = 105 := by
    rw [hpos]
    exact Vec.length_eval _ _ _ (by norm_num) (by norm_num)
  have hTskip : ¬(c1T.index = c1S.index ∨ c1T.active = false) := by
    simp [c1S, c1T, calmBot]
  have hscan : scan Kc [c1S, c1T] c1S = (100, -1) := by
    show scanGo Kc c1S [c1S, c1T] (Kc.VISION_RANGE, -1) = (100, -1)
    rw [scanGo, if_pos (Or.inl rfl), scanGo, if_neg hTskip,
      if_neg (by rw [hlen]; show ¬((105 : ℝ) - Kc.RADIUS ≤ Kc.VISION_RANGE ∧
        (105 : ℝ) < Kc.VISION_RANGE); norm_num [Kc]), scanGo]
    norm_num [Kc]
  have hangle : scanAngle c1S c1T = 0 := by
    unfold scanAngle
    have hd : c1S.direction + c1S.cannon = 0 := by norm_num [c1S, calmBot]
    have hp : c1T.position - c1S.position = Vec.mk 105 0 := by
      show Vec.mk 205 100 - Vec.mk 100 100 = Vec.mk 105 0
      rw [Vec.sub_def]
      norm_num
    rw [hd, Real.cos_zero, Real.sin_zero, hp]
    unfold Vec.angle
    rw [Vec.length_eval 1 0 1 (by norm_num) (by norm_num),
      Vec.length_eval 105 0 105 (by norm_num) (by norm_num)]
    have hdot : Vec.dot ⟨1, 0⟩ ⟨105, 0⟩ = 105 := by
      rw [Vec.dot]
      norm_num
    rw [hdot]
    norm_num [Real.arccos_one]
  have hmax : (0 : ℝ) ≤ scanMaxAngle Kc c1S c1T :=
    fmodR_nonneg _ _ (by rw [cPI]; exact Real.pi_pos)
  have hcand : candBase Kc c1S c1T := by
    refine ⟨rfl, by norm_num [c1S, c1T, calmBot], by rw [hlen]; norm_num [Kc], ?_⟩
    rw [hangle]
    exact hmax
  have hnotS : ¬candBase Kc c1S c1S := fun hc => hc.2.1 rfl
  have hlist : candListC1 Kc c1S [c1S, c1T] = [(105, 1)] := by
    rw [candListC1, if_neg hnotS, candListC1, if_pos hcand, candListC1, hlen]
    norm_num [c1T, calmBot]
  have hspec : scanSpecC1 Kc [c1S, c1T] c1S = (105, 1) := by
    rw [scanSpecC1, hlist, firstMin]
    rfl
  refine ⟨hscan, hspec, ?_⟩
  rw [hscan, hspec]
  intro h
  have := congrArg Prod.fst h
  norm_num at this

/-- C10.  The scan result's distance never exceeds `VISION_RANGE`; a
returned index other than `-1` names an active robot distinct from the
scanner at distance strictly below `VISION_RANGE`; and consequently a robot
at distance at least `VISION_RANGE` is never returned even when it passes
the `d - RADIUS ≤ VISION_RANGE` range filter, because the running nearest
threshold starts at `VISION_RANGE`. -/
theorem c10_scan_bounds (k : Consts) (bots : List Robot) (s : Robot)
    (hu : ∀ a ∈ bots, ∀ c ∈ bots, a.index = c.index → a = c) :
    (scan k bots s).1 ≤ k.VISION_RANGE ∧
      ((scan k bots s).2 ≠ -1 →
        ∃ b ∈ bots, b.active = true ∧ b.index ≠ s.index ∧ b.index = (scan k bots s).2 ∧
          (s.position - b.position).length < k.VISION_RANGE) ∧
      ∀ b ∈ bots, (s.position - b.position).length - k.RADIUS ≤ k.VISION_RANGE →
        k.VISION_RANGE ≤ (s.position - b.position).length →
        (scan k bots s).2 ≠ -1 → b.index ≠ (scan k bots s).2 := by
  rcases scanGo_spec k s bots k.VISION_RANGE (-1) with
      ⟨heq, _⟩ | ⟨l1, t, l2, hdec, hct, hlt, heq, _, _⟩
  · have hres : scan k bots s = (k.VISION_RANGE, -1) := heq
    rw [hres]
    refine ⟨le_refl _, fun h => absurd rfl h, ?_⟩
    intro b _ _ _ h
    exact absurd rfl h
  · have hres : scan k bots s = ((s.position - t.position).length, t.index) := heq
    have htmem : t ∈ bots := by
      rw [hdec]
      exact List.mem_append.mpr (Or.inr (List.mem_cons_self _ _))
    rw [hres]
    refine ⟨hlt.le, fun _ => ⟨t, htmem, hct.1, hct.2.1, rfl, hlt⟩, ?_⟩
    intro b hb _ hfar _ hidx
    have hbt : b = t := hu b hb t htmem hidx
    rw [hbt] at hfar
    exact absurd hlt (not_lt.mpr hfar)

/-- Scanner of the witness scenario for the scan bounds. -/
def c10S : Robot := calmBot ⟨100, 100⟩ 50 100 (1 / 2) 0

/-- Target of that scenario, at distance `50` straight ahead. -/
def c10T : Robot := calmBot ⟨150, 100⟩ 50 100 (1 / 2) 1

/-- Witness for `c10_scan_bounds`: a two-robot arena with distinct indices
in which the scan detects the target at distance `50`. -/
theorem c10_scan_bounds_witness :
    (∀ a ∈ [c10S, c10T], ∀ c ∈ [c10S, c10T], a.index = c.index → a = c) ∧
      ((scan Kc [c10S, c10T] c10S).1 ≤ Kc.VISION_RANGE ∧
        ((scan Kc [c10S, c10T] c10S).2 ≠ -1 →
          ∃ b ∈ [c10S, c10T], b.active = true ∧ b.index ≠ c10S.index ∧
            b.index = (scan Kc [c10S, c10T] c10S).2 ∧
            (c10S.position - b.position).length < Kc.VISION_RANGE) ∧
        ∀ b ∈ [c10S, c10T],
          (c10S.position - b.position).length - Kc.RADIUS ≤ Kc.VISION_RANGE →
          Kc.VISION_RANGE ≤ (c10S.position - b.position).length →
          (scan Kc [c10S, c10T] c10S).2 ≠ -1 → b.index ≠ (scan Kc [c10S, c10T] c10S).2) := by
  have hu : ∀ a ∈ [c10S, c10T], ∀ c ∈ [c10S, c10T], a.index = c.index → a = c := by
    intro a ha c hc h
    rcases List.mem_cons.mp ha with rfl | ha'
    · rcases List.mem_cons.mp hc with rfl | hc'
      · rfl
      · rcases List.mem_singleton.mp hc' with rfl
        norm_num [c10S, c10T, calmBot] at h
    · rcases List.mem_singleton.mp ha' with rfl
      rcases List.mem_cons.mp hc with rfl | hc'
      · norm_num [c10S, c10T, calmBot] at h
      · rcases List.mem_singleton.mp hc' with rfl
        rfl
  exact ⟨hu, c10_scan_bounds Kc [c10S, c10T] c10S hu⟩

/-- C9 (counterexample).  `Vector.projection` and `Vector.angle` called with
a zero-length reference vector do not return a guarded safe result: the
division by `vector.length()` (resp. by the product of lengths) raises an
uncaught `ZeroDivisionError`, modelled here by the fallible embeddings
returning `none`. -/
theorem c9_counterexample :
    Vec.projectionE ⟨3, 4⟩ ⟨0, 0⟩ = none ∧ Vec.angleE ⟨3, 4⟩ ⟨0, 0⟩ = none := by
  constructor
  · rw [Vec.projectionE, if_pos Vec.length_zero]
  · rw [Vec.angleE]
    rw [if_pos (by rw [Vec.length_zero, mul_zero])]

/-- C9 (amended).  Against a zero-length reference vector, `projection` and
`angle` propagate a division-by-zero fault rather than returning a guarded
result; only `unit()` guards the zero-length case, returning the zero
vector. -/
theorem c9_zero_vector_fault (u v : Vec) (hv : v.length = 0) :
    Vec.projectionE u v = none ∧ Vec.angleE u v = none ∧
      Vec.unit ⟨0, 0⟩ = ⟨0, 0⟩ := by
  refine ⟨by rw [Vec.projectionE, if_pos hv], ?_, ?_⟩
  · rw [Vec.angleE, hv, mul_zero]
    rw [if_pos rfl]
  · rw [Vec.unit, if_pos Vec.length_zero]

/-- Witness for `c9_zero_vector_fault` at the zero reference vector. -/
theorem c9_zero_vector_fault_witness :
    (Vec.mk 0 0).length = 0 ∧
      (Vec.projectionE ⟨1, 2⟩ ⟨0, 0⟩ = none ∧ Vec.angleE ⟨1, 2⟩ ⟨0, 0⟩ = none ∧
        Vec.unit ⟨0, 0⟩ = ⟨0, 0⟩) :=
  ⟨Vec.length_zero, c9_zero_vector_fault ⟨1, 2⟩ ⟨0, 0⟩ Vec.length_zero⟩

/-- C7.  Wall handling per axis: when the position exceeds a boundary on one
axis (accounting for `RADIUS`), that axis's handler clamps exactly that
axis's position component to the boundary value and multiplies exactly that
axis's velocity component by `-1`, leaving the other axis's position and
velocity components unchanged. -/
theorem c7_wall_axis (k : Consts) (b : Robot) :
    (b.position.x < k.RADIUS →
        (stepWallX k b).position.x = k.RADIUS ∧
          (stepWallX k b).velocity.x = b.velocity.x * (-1) ∧
            (stepWallX k b).position.y = b.position.y ∧
              (stepWallX k b).velocity.y = b.velocity.y) ∧
      (¬b.position.x < k.RADIUS → k.ARENA_WIDTH - k.RADIUS < b.position.x →
          (stepWallX k b).position.x = k.ARENA_WIDTH - k.RADIUS ∧
            (stepWallX k b).velocity.x = b.velocity.x * (-1) ∧
              (stepWallX k b).position.y = b.position.y ∧
                (stepWallX k b).velocity.y = b.velocity.y) ∧
        (b.position.y < k.RADIUS →
            (stepWallY k b).position.y = k.RADIUS ∧
              (stepWallY k b).velocity.y = b.velocity.y * (-1) ∧
                (stepWallY k b).position.x = b.position.x ∧
                  (stepWallY k b).velocity.x = b.velocity.x) ∧
          (¬b.position.y < k.RADIUS → k.ARENA_HEIGHT - k.RADIUS < b.position.y →
              (stepWallY k b).position.y = k.ARENA_HEIGHT - k.RADIUS ∧
                (stepWallY k b).velocity.y = b.velocity.y * (-1) ∧
                  (stepWallY k b).position.x = b.position.x ∧
                    (stepWallY k b).velocity.x = b.velocity.x) := by
  refine ⟨?_, ?_, ?_, ?_⟩
  · intro h
    rw [stepWallX, if_pos h]
    exact ⟨rfl, rfl, rfl, rfl⟩
  · intro h1 h2
    rw [stepWallX, if_neg h1, if_pos h2]
    exact ⟨rfl, rfl, rfl, rfl⟩
  · intro h
    rw [stepWallY, if_pos h]
    exact ⟨rfl, rfl, rfl, rfl⟩
  · intro h1 h2
    rw [stepWallY, if_neg h1, if_pos h2]
    exact ⟨rfl, rfl, rfl, rfl⟩

lemma ite_update_health (P : Prop) [Decidable P] (b : Robot) (x : ℝ) :
    (if P then { b with health := x } else b) =
      { b with health := if P then x else b.health } := by
  split <;> rfl

lemma ite_update_temp (P : Prop) [Decidable P] (b : Robot) (x : ℝ) :
    (if P then { b with temperature := x } else b) =
      { b with temperature := if P then x else b.temperature } := by
  split <;> rfl

/-- `stepIntegrate` on a living bot, written as a single record update. -/
lemma stepIntegrate_active (k : Consts) (b : Robot) (hb : b.active = true) :
    stepIntegrate k b =
      { b with
          position := b.position + b.velocity
          velocity := b.velocity.mulS k.FRICTION
          direction := b.direction + b.angular_velocity
          angular_velocity := b.angular_velocity * k.ANGULAR_FRICTION } := by
  simp [stepIntegrate, hb]

/-- `stepDrain` written as a single record update. -/
lemma stepDrain_eq (k : Consts) (b : Robot) :
    stepDrain k b =
      { b with
          velocity :=
            b.velocity + (Vec.mk (Real.cos b.direction) (Real.sin b.direction)).mulS
              (minabs b.acceleration k.MAX_ACCELERATION)
          acceleration := b.acceleration - minabs b.acceleration k.MAX_ACCELERATION
          angular_velocity :=
            b.angular_velocity + minabs b.angular_acceleration k.MAX_TURN_RATE
          angular_acceleration :=
            b.angular_acceleration - minabs b.angular_acceleration k.MAX_TURN_RATE
          cannon := b.cannon + minabs b.cannon_acceleration k.MAX_CANNON_TURN_RATE
          cannon_acceleration :=
            b.cannon_acceleration - minabs b.cannon_acceleration k.MAX_CANNON_TURN_RATE } :=
  rfl

lemma stepArc_eq (b : Robot) : stepArc b = { b with scan_arc := b.target_arc } := rfl

lemma stepDeath_skip (k : Consts) (r : ℝ) (b : Robot)
    (hb : ¬(b.health ≤ 0 ∧ b.active = true)) : stepDeath k r b = b := by
  rw [stepDeath, if_neg hb]

/-- `stepThermal` written as a single record update. -/
lemma stepThermal_eq (k : Consts) (b : Robot) :
    stepThermal k b =
      { b with
          health :=
            if k.DANGEROUS_TEMPERATURE ≤ b.temperature ∧ b.active = true then
              b.health - k.TEMPERATURE_DAMAGE
            else b.health
          temperature :=
            min
              ((if k.NORMAL_TEMPERATURE < b.temperature then b.temperature - k.COOLING_RATE
                else b.temperature) + k.velocity_heat b.velocity.length)
              k.MAX_TEMPERATURE } := by
  simp only [stepThermal]
  rw [ite_update_health, ite_update_temp]

lemma stepWallX_skip (k : Consts) (b : Robot) (h1 : ¬b.position.x < k.RADIUS)
    (h2 : ¬k.ARENA_WIDTH - k.RADIUS < b.position.x) : stepWallX k b = b := by
  rw [stepWallX, if_neg h1, if_neg h2]

lemma stepWallY_skip (k : Consts) (b : Robot) (h1 : ¬b.position.y < k.RADIUS)
    (h2 : ¬k.ARENA_HEIGHT - k.RADIUS < b.position.y) : stepWallY k b = b := by
  rw [stepWallY, if_neg h1, if_neg h2]

lemma stepStrategy_noop_active (k : Consts) (inv : Robot → List Shot → Robot × List Shot)
    (b : Robot) (sh : List Shot) (hinv : ∀ b' sh', inv b' sh' = (b', sh'))
    (hb : b.active = true) :
    stepStrategy k inv (b, sh) =
      ({ b with target_arc := clampArc k b.target_arc, has_shot := false }, sh) := by
  simp only [stepStrategy, hb, if_pos, hinv]

lemma stepStrategy_inactive (k : Consts) (inv : Robot → List Shot → Robot × List Shot)
    (b : Robot) (sh : List Shot) (hb : b.active = false) :
    stepStrategy k inv (b, sh) = (b, sh) := by
  simp only [stepStrategy, hb]
  rfl

/-- Accumulator fields are untouched by every step except `stepDrain`. -/
lemma stepIntegrate_accs (k : Consts) (b : Robot) :
    (stepIntegrate k b).acceleration = b.acceleration ∧
      (stepIntegrate k b).angular_acceleration = b.angular_acceleration ∧
        (stepIntegrate k b).cannon_acceleration = b.cannon_acceleration := by
  simp only [stepIntegrate]
  split_ifs <;> exact ⟨rfl, rfl, rfl⟩

lemma stepDeath_accs (k : Consts) (r : ℝ) (b : Robot) :
    (stepDeath k r b).acceleration = b.acceleration ∧
      (stepDeath k r b).angular_acceleration = b.angular_acceleration ∧
        (stepDeath k r b).cannon_acceleration = b.cannon_acceleration := by
  simp only [stepDeath]
  split_ifs <;> exact ⟨rfl, rfl, rfl⟩

lemma stepWallX_accs (k : Consts) (b : Robot) :
    (stepWallX k b).acceleration = b.acceleration ∧
      (stepWallX k b).angular_acceleration = b.angular_acceleration ∧
        (stepWallX k b).cannon_acceleration = b.cannon_acceleration := by
  simp only [stepWallX]
  split_ifs <;> exact ⟨rfl, rfl, rfl⟩

lemma stepWallY_accs (k : Consts) (b : Robot) :
    (stepWallY k b).acceleration = b.acceleration ∧
      (stepWallY k b).angular_acceleration = b.angular_acceleration ∧
        (stepWallY k b).cannon_acceleration = b.cannon_acceleration := by
  simp only [stepWallY]
  split_ifs <;> exact ⟨rfl, rfl, rfl⟩

lemma stepStrategy_noop_accs (k : Consts) (inv : Robot → List Shot → Robot × List Shot)
    (b : Robot) (sh : List Shot) (hinv : ∀ b' sh', inv b' sh' = (b', sh')) :
    (stepStrategy k inv (b, sh)).1.acceleration = b.acceleration ∧
      (stepStrategy k inv (b, sh)).1.angular_acceleration = b.angular_acceleration ∧
        (stepStrategy k inv (b, sh)).1.cannon_acceleration = b.cannon_acceleration := by
  simp only [stepStrategy, hinv]
  split_ifs <;> exact ⟨rfl, rfl, rfl⟩

/-- `cannon` is untouched by every step except `stepDrain` (and the corpse
spin of `stepIntegrate`). -/
lemma stepDeath_cannon (k : Consts) (r : ℝ) (b : Robot) :
    (stepDeath k r b).cannon = b.cannon := by
  simp only [stepDeath]
  split_ifs <;> rfl

lemma stepWallX_cannon (k : Consts) (b : Robot) : (stepWallX k b).cannon = b.cannon := by
  simp only [stepWallX]
  split_ifs <;> rfl

lemma stepWallY_cannon (k : Consts) (b : Robot) : (stepWallY k b).cannon = b.cannon := by
  simp only [stepWallY]
  split_ifs <;> rfl

lemma stepStrategy_noop_cannon (k : Consts) (inv : Robot → List Shot → Robot × List Shot)
    (b : Robot) (sh : List Shot) (hinv : ∀ b' sh', inv b' sh' = (b', sh')) :
    (stepStrategy k inv (b, sh)).1.cannon = b.cannon := by
  simp only [stepStrategy, hinv]
  split_ifs <;> rfl

lemma stepWallX_angvel (k : Consts) (b : Robot) :
    (stepWallX k b).angular_velocity = b.angular_velocity := by
  simp only [stepWallX]
  split_ifs <;> rfl

lemma stepWallY_angvel (k : Consts) (b : Robot) :
    (stepWallY k b).angular_velocity = b.angular_velocity := by
  simp only [stepWallY]
  split_ifs <;> rfl

lemma stepStrategy_noop_angvel (k : Consts) (inv : Robot → List Shot → Robot × List Shot)
    (b : Robot) (sh : List Shot) (hinv : ∀ b' sh', inv b' sh' = (b', sh')) :
    (stepStrategy k inv (b, sh)).1.angular_velocity = b.angular_velocity := by
  simp only [stepStrategy, hinv]
  split_ifs <;> rfl

lemma stepStrategy_noop_velocity (k : Consts) (inv : Robot → List Shot → Robot × List Shot)
    (b : Robot) (sh : List Shot) (hinv : ∀ b' sh', inv b' sh' = (b', sh')) :
    (stepStrategy k inv (b, sh)).1.velocity = b.velocity := by
  simp only [stepStrategy, hinv]
  split_ifs <;> rfl

/-- A stationary robot with a pending cannon-turn accumulator. -/
def pendBot (pos : Vec) (t hl arc : ℝ) (idx : ℤ) (c p : ℝ) : Robot :=
  { calmBot pos t hl arc idx with cannon := c, cannon_acceleration := p }

/-- One tick of `Bot.update` on a stationary robot away from walls, with a
no-op strategy: only the cannon drain and the thermal relaxation act. -/
lemma update_still (k : Consts) (inv : Robot → List Shot → Robot × List Shot) (r : ℝ)
    (pos : Vec) (t hl arc c p : ℝ) (idx : ℤ) (sh : List Shot)
    (hinv : ∀ b' sh', inv b' sh' = (b', sh'))
    (hh : 0 < hl)
    (hdang : t < k.DANGEROUS_TEMPERATURE)
    (hx1 : k.RADIUS ≤ pos.x) (hx2 : pos.x ≤ k.ARENA_WIDTH - k.RADIUS)
    (hy1 : k.RADIUS ≤ pos.y) (hy2 : pos.y ≤ k.ARENA_HEIGHT - k.RADIUS)
    (harc1 : k.MIN_SCAN_ARC ≤ arc) (harc2 : arc ≤ cTAU) :
    Robot.update k inv r (pendBot pos t hl arc idx c p) sh =
      (pendBot pos
        (min ((if k.NORMAL_TEMPERATURE < t then t - k.COOLING_RATE else t) +
            k.velocity_heat 0) k.MAX_TEMPERATURE)
        hl arc idx (c + minabs p k.MAX_CANNON_TURN_RATE)
        (p - minabs p k.MAX_CANNON_TURN_RATE), sh) := by
  have h1 : stepIntegrate k (pendBot pos t hl arc idx c p) = pendBot pos t hl arc idx c p := by
    simp [stepIntegrate, pendBot, calmBot, Vec.add_zero', Vec.zero_mulS]
  have h2 : stepDrain k (pendBot pos t hl arc idx c p) =
      pendBot pos t hl arc idx (c + minabs p k.MAX_CANNON_TURN_RATE)
        (p - minabs p k.MAX_CANNON_TURN_RATE) := by
    rw [stepDrain_eq]
    simp [pendBot, calmBot, minabs_zero, Vec.mulS_zero, Vec.add_zero']
  have h3 : ∀ c' p', stepArc (pendBot pos t hl arc idx c' p') =
      pendBot pos t hl arc idx c' p' := by
    intro c' p'
    rw [stepArc_eq]
    simp [pendBot, calmBot]
  have h4 : ∀ c' p', stepDeath k r (pendBot pos t hl arc idx c' p') =
      pendBot pos t hl arc idx c' p' := by
    intro c' p'
    exact stepDeath_skip k r _ (fun hc => absurd hc.1 (not_le.mpr hh))
  have h5 : ∀ c' p', stepThermal k (pendBot pos t hl arc idx c' p') =
      pendBot pos
        (min ((if k.NORMAL_TEMPERATURE < t then t - k.COOLING_RATE else t) +
            k.velocity_heat 0) k.MAX_TEMPERATURE) hl arc idx c' p' := by
    intro c' p'
    rw [stepThermal_eq]
    have hc1 : ¬(k.DANGEROUS_TEMPERATURE ≤ (pendBot pos t hl arc idx c' p').temperature ∧
        (pendBot pos t hl arc idx c' p').active = true) :=
      fun hc => absurd hc.1 (not_le.mpr hdang)
    rw [if_neg hc1]
    simp [pendBot, calmBot, Vec.length_zero]
  have h6 : ∀ t' c' p', stepWallX k (pendBot pos t' hl arc idx c' p') =
      pendBot pos t' hl arc idx c' p' := by
    intro t' c' p'
    exact stepWallX_skip k _ (not_lt.mpr hx1) (not_lt.mpr hx2)
  have h7 : ∀ t' c' p', stepWallY k (pendBot pos t' hl arc idx c' p') =
      pendBot pos t' hl arc idx c' p' := by
    intro t' c' p'
    exact stepWallY_skip k _ (not_lt.mpr hy1) (not_lt.mpr hy2)
  have h8 : ∀ t' c' p', stepStrategy k inv (pendBot pos t' hl arc idx c' p', sh) =
      (pendBot pos t' hl arc idx c' p', sh) := by
    intro t' c' p'
    rw [stepStrategy_noop_active k inv _ sh hinv rfl]
    have harc : clampArc k (pendBot pos t' hl arc idx c' p').target_arc = arc := by
      show clampArc k arc = arc
      rw [clampArc, min_eq_left harc2, max_eq_left harc1]
    rw [harc]
    simp [pendBot, calmBot]
  rw [Robot.update, h1, h2, h3, h4, h5, h6, h7, h8]

/-- C5.  For each of the three actuator accumulators, `Bot.update` subtracts
exactly `minabs(pending, max_rate) = sign(pending) * min(|pending|, max)`
from the accumulator; for a living bot it adds exactly that amount to the
cannon angle, the angular velocity (after friction) and the velocity (along
the heading); and a pending cannon turn `p ≥ 0` larger than the per-tick
maximum `M` is applied incrementally over the following ticks, the angle
advancing by `min(n·M, p)` after `n` ticks with remainder `max(p - n·M, 0)`
still pending, rather than being clamped and discarded. -/
theorem c5_actuator_drain (k : Consts) (inv : Robot → List Shot → Robot × List Shot)
    (r : ℝ) (b : Robot) (sh : List Shot)
    (hinv : ∀ b' sh', inv b' sh' = (b', sh')) :
    ((Robot.update k inv r b sh).1.acceleration
        = b.acceleration - minabs b.acceleration k.MAX_ACCELERATION ∧
      (Robot.update k inv r b sh).1.angular_acceleration
        = b.angular_acceleration - minabs b.angular_acceleration k.MAX_TURN_RATE ∧
      (Robot.update k inv r b sh).1.cannon_acceleration
        = b.cannon_acceleration - minabs b.cannon_acceleration k.MAX_CANNON_TURN_RATE) ∧
    (b.active = true →
      (Robot.update k inv r b sh).1.cannon
        = b.cannon + minabs b.cannon_acceleration k.MAX_CANNON_TURN_RATE) ∧
    (b.active = true → 0 < b.health →
      (Robot.update k inv r b sh).1.angular_velocity
        = b.angular_velocity * k.ANGULAR_FRICTION
          + minabs b.angular_acceleration k.MAX_TURN_RATE) ∧
    (b.active = true → 0 < b.health →
      k.RADIUS ≤ b.position.x + b.velocity.x →
      b.position.x + b.velocity.x ≤ k.ARENA_WIDTH - k.RADIUS →
      k.RADIUS ≤ b.position.y + b.velocity.y →
      b.position.y + b.velocity.y ≤ k.ARENA_HEIGHT - k.RADIUS →
      (Robot.update k inv r b sh).1.velocity
        = b.velocity.mulS k.FRICTION +
          (Vec.mk (Real.cos (b.direction + b.angular_velocity))
              (Real.sin (b.direction + b.angular_velocity))).mulS
            (minabs b.acceleration k.MAX_ACCELERATION)) ∧
    (∀ (pos : Vec) (hl arc c p : ℝ) (idx : ℤ) (n : ℕ),
      0 < hl → 0 ≤ p → 0 ≤ k.MAX_CANNON_TURN_RATE →
      k.velocity_heat 0 = 0 → k.NORMAL_TEMPERATURE < k.DANGEROUS_TEMPERATURE →
      k.NORMAL_TEMPERATURE ≤ k.MAX_TEMPERATURE →
      k.RADIUS ≤ pos.x → pos.x ≤ k.ARENA_WIDTH - k.RADIUS →
      k.RADIUS ≤ pos.y → pos.y ≤ k.ARENA_HEIGHT - k.RADIUS →
      k.MIN_SCAN_ARC ≤ arc → arc ≤ cTAU →
      (fun b' => (Robot.update k inv r b' []).1)^[n]
          (pendBot pos k.NORMAL_TEMPERATURE hl arc idx c p) =
        pendBot pos k.NORMAL_TEMPERATURE hl arc idx
          (c + min ((n : ℝ) * k.MAX_CANNON_TURN_RATE) p)
          (max (p - (n : ℝ) * k.MAX_CANNON_TURN_RATE) 0)) := by
  have hupd : Robot.update k inv r b sh =
      stepStrategy k inv
        (stepWallY k (stepWallX k (stepThermal k (stepDeath k r (stepArc (stepDrain k
          (stepIntegrate k b)))))), sh) := rfl
  refine ⟨?_, ?_, ?_, ?_, ?_⟩
  · -- accumulator drains hold for every bot
    rw [hupd]
    obtain ⟨i1, i2, i3⟩ := stepIntegrate_accs k b
    obtain ⟨s1, s2, s3⟩ := stepStrategy_noop_accs k inv
      (stepWallY k (stepWallX k (stepThermal k (stepDeath k r (stepArc (stepDrain k
        (stepIntegrate k b))))))) sh hinv
    obtain ⟨x1, x2, x3⟩ := stepWallX_accs k
      (stepThermal k (stepDeath k r (stepArc (stepDrain k (stepIntegrate k b)))))
    obtain ⟨y1, y2, y3⟩ := stepWallY_accs k
      (stepWallX k (stepThermal k (stepDeath k r (stepArc (stepDrain k
        (stepIntegrate k b))))))
    obtain ⟨d1, d2, d3⟩ := stepDeath_accs k r (stepArc (stepDrain k (stepIntegrate k b)))
    refine ⟨?_, ?_, ?_⟩
    · rw [s1, y1, x1, stepThermal_eq, stepArc_eq] at *
      show (stepDeath k r { stepDrain k (stepIntegrate k b) with
        scan_arc := (stepDrain k (stepIntegrate k b)).target_arc }).acceleration = _
      rw [(stepDeath_accs k r _).1, stepDrain_eq]
      show (stepIntegrate k b).acceleration - minabs (stepIntegrate k b).acceleration _ = _
      rw [i1]
    · rw [s2, y2, x2, stepThermal_eq, stepArc_eq] at *
      show (stepDeath k r { stepDrain k (stepIntegrate k b) with
        scan_arc := (stepDrain k (stepIntegrate k b)).target_arc }).angular_acceleration = _
      rw [(stepDeath_accs k r _).2.1, stepDrain_eq]
      show (stepIntegrate k b).angular_acceleration
          - minabs (stepIntegrate k b).angular_acceleration _ = _
      rw [i2]
    · rw [s3, y3, x3, stepThermal_eq, stepArc_eq] at *
      show (stepDeath k r { stepDrain k (stepIntegrate k b) with
        scan_arc := (stepDrain k (stepIntegrate k b)).target_arc }).cannon_acceleration = _
      rw [(stepDeath_accs k r _).2.2, stepDrain_eq]
      show (stepIntegrate k b).cannon_acceleration
          - minabs (stepIntegrate k b).cannon_acceleration _ = _
      rw [i3]
  · -- cannon gains exactly the drained amount on a living bot
    intro hb
    rw [hupd, stepStrategy_noop_cannon k inv _ sh hinv, stepWallY_cannon, stepWallX_cannon,
      stepThermal_eq, stepArc_eq]
    show (stepDeath k r { stepDrain k (stepIntegrate k b) with
      scan_arc := (stepDrain k (stepIntegrate k b)).target_arc }).cannon = _
    rw [stepDeath_cannon, stepDrain_eq]
    show (stepIntegrate k b).cannon + minabs (stepIntegrate k b).cannon_acceleration _ = _
    rw [stepIntegrate_active k b hb]
  · -- angular velocity gains exactly the drained amount on a living, healthy bot
    intro hb hh
    rw [hupd, stepStrategy_noop_angvel k inv _ sh hinv, stepWallY_angvel, stepWallX_angvel,
      stepThermal_eq, stepArc_eq]
    have hdeath : ¬((stepArc (stepDrain k (stepIntegrate k b))).health ≤ 0 ∧
        (stepArc (stepDrain k (stepIntegrate k b))).active = true) := by
      intro hc
      have : (stepArc (stepDrain k (stepIntegrate k b))).health = b.health := by
        rw [stepArc_eq, stepDrain_eq, stepIntegrate_active k b hb]
      rw [this] at hc
      exact absurd hc.1 (not_le.mpr hh)
    show (stepDeath k r { stepDrain k (stepIntegrate k b) with
      scan_arc := (stepDrain k (stepIntegrate k b)).target_arc }).angular_velocity = _
    rw [stepDeath_skip k r _ (by rw [stepArc_eq] at hdeath; exact hdeath), stepDrain_eq]
    show (stepIntegrate k b).angular_velocity
        + minabs (stepIntegrate k b).angular_acceleration _ = _
    rw [stepIntegrate_active k b hb]
  · -- velocity gains exactly the drained amount along the heading on a
    -- living, healthy bot away from the walls
    intro hb hh hwx1 hwx2 hwy1 hwy2
    have hdeath : ¬((stepArc (stepDrain k (stepIntegrate k b))).health ≤ 0 ∧
        (stepArc (stepDrain k (stepIntegrate k b))).active = true) := by
      intro hc
      have : (stepArc (stepDrain k (stepIntegrate k b))).health = b.health := by
        rw [stepArc_eq, stepDrain_eq, stepIntegrate_active k b hb]
      rw [this] at hc
      exact absurd hc.1 (not_le.mpr hh)
    have hdsk : stepDeath k r (stepArc (stepDrain k (stepIntegrate k b))) =
        stepArc (stepDrain k (stepIntegrate k b)) := stepDeath_skip k r _ hdeath
    have hTx : (stepThermal k (stepArc (stepDrain k (stepIntegrate k b)))).position.x =
        b.position.x + b.velocity.x := by
      rw [stepThermal_eq, stepArc_eq, stepDrain_eq, stepIntegrate_active k b hb]
      rfl
    have hTy : (stepThermal k (stepArc (stepDrain k (stepIntegrate k b)))).position.y =
        b.position.y + b.velocity.y := by
      rw [stepThermal_eq, stepArc_eq, stepDrain_eq, stepIntegrate_active k b hb]
      rfl
    rw [hupd, stepStrategy_noop_velocity k inv _ sh hinv, hdsk]
    rw [stepWallX_skip k _ (by rw [hTx]; exact not_lt.mpr hwx1)
      (by rw [hTx]; exact not_lt.mpr hwx2)]
    rw [stepWallY_skip k _ (by rw [hTy]; exact not_lt.mpr hwy1)
      (by rw [hTy]; exact not_lt.mpr hwy2)]
    rw [stepThermal_eq, stepArc_eq]
    show ({ stepDrain k (stepIntegrate k b) with
      scan_arc := (stepDrain k (stepIntegrate k b)).target_arc }).velocity = _
    rw [stepDrain_eq]
    show (stepIntegrate k b).velocity +
        (Vec.mk (Real.cos (stepIntegrate k b).direction)
            (Real.sin (stepIntegrate k b).direction)).mulS
          (minabs (stepIntegrate k b).acceleration k.MAX_ACCELERATION) = _
    rw [stepIntegrate_active k b hb]
  · -- carry-over across ticks on a stationary bot
    intro pos hl arc c p idx n hhl hp hM hvh hnd hnm hpx1 hpx2 hpy1 hpy2 ha1 ha2
    induction n with
    | zero =>
        simp only [Function.iterate_zero, id_eq, Nat.cast_zero, zero_mul]
        rw [min_eq_left hp, add_zero, sub_zero, max_eq_left hp]
    | succ m ihm =>
        rw [Function.iterate_succ_apply', ihm]
        show (Robot.update k inv r
            (pendBot pos k.NORMAL_TEMPERATURE hl arc idx
              (c + min ((m : ℝ) * k.MAX_CANNON_TURN_RATE) p)
              (max (p - (m : ℝ) * k.MAX_CANNON_TURN_RATE) 0)) []).1 = _
        rw [update_still k inv r pos k.NORMAL_TEMPERATURE hl arc _ _ idx [] hinv hhl hnd
          hpx1 hpx2 hpy1 hpy2 ha1 ha2]
        rw [if_neg (lt_irrefl _), hvh, add_zero, min_eq_left hnm]
        rw [minabs_of_nonneg (le_max_right _ _) hM]
        have hmM : (0 : ℝ) ≤ (m : ℝ) * k.MAX_CANNON_TURN_RATE :=
          mul_nonneg (Nat.cast_nonneg m) hM
        have hsucc : ((m + 1 : ℕ) : ℝ) * k.MAX_CANNON_TURN_RATE =
            (m : ℝ) * k.MAX_CANNON_TURN_RATE + k.MAX_CANNON_TURN_RATE := by
          push_cast
          ring
        have hA : c + min ((m : ℝ) * k.MAX_CANNON_TURN_RATE) p +
            min (max (p - (m : ℝ) * k.MAX_CANNON_TURN_RATE) 0) k.MAX_CANNON_TURN_RATE =
            c + min (((m + 1 : ℕ) : ℝ) * k.MAX_CANNON_TURN_RATE) p := by
          rw [hsucc]
          rcases le_total p ((m : ℝ) * k.MAX_CANNON_TURN_RATE) with hc1 | hc1
          · rw [max_eq_right (by linarith), min_eq_left hM, min_eq_right hc1,
              min_eq_right (by linarith)]
            ring
          · rw [max_eq_left (by linarith), min_eq_left hc1]
            rcases le_total (p - (m : ℝ) * k.MAX_CANNON_TURN_RATE) k.MAX_CANNON_TURN_RATE with
                hc2 | hc2
            · rw [min_eq_left hc2, min_eq_right (by linarith)]
              ring
            · rw [min_eq_right hc2, min_eq_left (by linarith)]
              ring
        have hB : max (p - (m : ℝ) * k.MAX_CANNON_TURN_RATE) 0 -
            min (max (p - (m : ℝ) * k.MAX_CANNON_TURN_RATE) 0) k.MAX_CANNON_TURN_RATE =
            max (p - ((m + 1 : ℕ) : ℝ) * k.MAX_CANNON_TURN_RATE) 0 := by
          rw [hsucc]
          rcases le_total p ((m : ℝ) * k.MAX_CANNON_TURN_RATE) with hc1 | hc1
          · rw [max_eq_right (by linarith), min_eq_left hM, max_eq_right (by linarith)]
            ring
          · rw [max_eq_left (by linarith)]
            rcases le_total (p - (m : ℝ) * k.MAX_CANNON_TURN_RATE) k.MAX_CANNON_TURN_RATE with
                hc2 | hc2
            · rw [min_eq_left hc2, max_eq_right (by linarith)]
              ring
            · rw [min_eq_right hc2, max_eq_left (by linarith)]
              ring
        rw [hA, hB]

/-- Witness for `c5_actuator_drain`: with the concrete configuration `Kc`
(`MAX_CANNON_TURN_RATE = 1/2`), a pending cannon turn of `3/4` drains to
`min(2 · 1/2, 3/4) = 3/4` applied after two ticks with remainder `0`. -/
theorem c5_actuator_drain_witness :
    ((1 : ℝ) / 10 ≤ 1 / 2 ∧ (1 : ℝ) / 2 ≤ cTAU ∧ (0 : ℝ) < 100 ∧ (0 : ℝ) ≤ 3 / 4) ∧
      (fun b' => (Robot.update Kc (fun b'' sh'' => (b'', sh'')) 0 b' []).1)^[2]
          (pendBot ⟨50, 50⟩ Kc.NORMAL_TEMPERATURE 100 (1 / 2) 0 0 (3 / 4)) =
        pendBot ⟨50, 50⟩ Kc.NORMAL_TEMPERATURE 100 (1 / 2) 0
          (0 + min (((2 : ℕ) : ℝ) * Kc.MAX_CANNON_TURN_RATE) (3 / 4))
          (max ((3 : ℝ) / 4 - ((2 : ℕ) : ℝ) * Kc.MAX_CANNON_TURN_RATE) 0) := by
  have htau : (1 : ℝ) / 2 ≤ cTAU := by
    rw [cTAU]
    nlinarith [Real.pi_gt_three]
  refine ⟨⟨by norm_num, htau, by norm_num, by norm_num⟩, ?_⟩
  exact (c5_actuator_drain Kc (fun b'' sh'' => (b'', sh'')) 0 default []
      (fun _ _ => rfl)).2.2.2.2 ⟨50, 50⟩ 100 (1 / 2) 0 (3 / 4) 0 2
    (by norm_num) (by norm_num) (by norm_num [Kc]) (by norm_num [Kc]) (by norm_num [Kc])
    (by norm_num [Kc]) (by norm_num [Kc]) (by norm_num [Kc]) (by norm_num [Kc])
    (by norm_num [Kc]) (by norm_num [Kc]) htau

lemma execCmd_keeps (k : Consts) (i : ℕ) (st : Robot × List Shot) (c : RCmd)
    (hb : st.1.has_shot = true) :
    (execCmd k i st c).2 = st.2 ∧ (execCmd k i st c).1.has_shot = true := by
  cases c <;> simp [execCmd, hb]

lemma runCmds_of_has (k : Consts) (i : ℕ) (cs : List RCmd) :
    ∀ (b : Robot) (sh : List Shot), b.has_shot = true →
      (runCmds k i b sh cs).2 = sh ∧ (runCmds k i b sh cs).1.has_shot = true := by
  induction cs with
  | nil => intro b sh hb; exact ⟨rfl, hb⟩
  | cons c cs ih =>
      intro b sh hb
      obtain ⟨h2, h1⟩ := execCmd_keeps k i (b, sh) c hb
      have hstep : runCmds k i b sh (c :: cs) =
          runCmds k i (execCmd k i (b, sh) c).1 (execCmd k i (b, sh) c).2 cs := rfl
      rw [hstep]
      obtain ⟨g1, g2⟩ := ih _ _ h1
      exact ⟨by rw [g1, h2], g2⟩

lemma runCmds_length (k : Consts) (i : ℕ) (cs : List RCmd) :
    ∀ (b : Robot) (sh : List Shot),
      ((runCmds k i b sh cs).2).length ≤ sh.length + (if b.has_shot = true then 0 else 1) := by
  induction cs with
  | nil => intro b sh; cases hb : b.has_shot <;> simp [runCmds, hb]
  | cons c cs ih =>
      intro b sh
      have hstep : runCmds k i b sh (c :: cs) =
          runCmds k i (execCmd k i (b, sh) c).1 (execCmd k i (b, sh) c).2 cs := rfl
      rw [hstep]
      cases c with
      | accelerate d => simpa [execCmd] using ih _ _
      | turn d => simpa [execCmd] using ih _ _
      | rotateCannon d => simpa [execCmd] using ih _ _
      | setArc w => simpa [execCmd] using ih _ _
      | shoot =>
          by_cases hb : b.has_shot = true
          · have hx : execCmd k i (b, sh) RCmd.shoot = (b, sh) := by simp [execCmd, hb]
            rw [hx]
            have := ih b sh
            simpa [hb] using this
          · have hb' : b.has_shot = false := by simpa using hb
            have hx : execCmd k i (b, sh) RCmd.shoot =
                ({ b with
                    shots := b.shots + 1
                    temperature := b.temperature + k.HEAT_PER_SHOT
                    has_shot := true },
                  sh ++ [mkShot k i b]) := by
              simp [execCmd, hb']
            rw [hx]
            have hrest := (runCmds_of_has k i cs
              { b with
                shots := b.shots + 1
                temperature := b.temperature + k.HEAT_PER_SHOT
                has_shot := true } (sh ++ [mkShot k i b]) rfl).1
            rw [hrest]
            simp [hb']

lemma stepStrategy_active_has_shot (k : Consts)
    (inv : Robot → List Shot → Robot × List Shot) (st : Robot × List Shot)
    (h : (stepStrategy k inv st).1.active = true) :
    (stepStrategy k inv st).1.has_shot = false := by
  by_cases hA : st.1.active = true
  · simp only [stepStrategy, if_pos hA]
  · simp only [stepStrategy, if_neg hA] at h ⊢
    exact absurd h hA

/-- C8.  During one tick, however many commands a strategy issues: the shot
list grows by at most one projectile; after a first `shoot()` on an armed
robot the shot list is exactly the old list plus that one projectile, no
matter what further commands follow, and the first call increments the shot
counter and adds `HEAT_PER_SHOT` while setting `has_shot`; a `shoot()` on a
robot that already fired this tick is a no-op; and at the end of any update
that leaves the robot active, `has_shot` is reset to `false` so it may fire
again next tick. -/
theorem c8_one_projectile_per_tick (k : Consts) (i : ℕ) (b : Robot) (sh : List Shot)
    (cs : List RCmd) (inv : Robot → List Shot → Robot × List Shot) (r : ℝ) :
    ((runCmds k i b sh cs).2).length ≤ sh.length + (if b.has_shot = true then 0 else 1) ∧
      (b.has_shot = false →
        execCmd k i (b, sh) RCmd.shoot =
          ({ b with
              shots := b.shots + 1
              temperature := b.temperature + k.HEAT_PER_SHOT
              has_shot := true },
            sh ++ [mkShot k i b]) ∧
          (runCmds k i b sh (RCmd.shoot :: cs)).2 = sh ++ [mkShot k i b]) ∧
        (b.has_shot = true → execCmd k i (b, sh) RCmd.shoot = (b, sh)) ∧
          ((Robot.update k inv r b sh).1.active = true →
            (Robot.update k inv r b sh).1.has_shot = false) := by
  refine ⟨runCmds_length k i cs b sh, ?_, ?_, ?_⟩
  · intro hb
    have hx : execCmd k i (b, sh) RCmd.shoot =
        ({ b with
            shots := b.shots + 1
            temperature := b.temperature + k.HEAT_PER_SHOT
            has_shot := true },
          sh ++ [mkShot k i b]) := by
      simp [execCmd, hb]
    refine ⟨hx, ?_⟩
    have hstep : runCmds k i b sh (RCmd.shoot :: cs) =
        runCmds k i (execCmd k i (b, sh) RCmd.shoot).1
          (execCmd k i (b, sh) RCmd.shoot).2 cs := rfl
    rw [hstep, hx]
    exact (runCmds_of_has k i cs
      { b with
        shots := b.shots + 1
        temperature := b.temperature + k.HEAT_PER_SHOT
        has_shot := true } (sh ++ [mkShot k i b]) rfl).1
  · intro hb
    simp [execCmd, hb]
  · exact fun h => stepStrategy_active_has_shot k inv _ h

lemma getD_set_self (l : List Robot) (i : ℕ) (a : Robot) (h : i < l.length) :
    (l.set i a).getD i default = a := by
  simp [List.getD_eq_getElem?_getD, List.getElem?_set_self', List.getElem?_eq_getElem h]

lemma getD_set_ne (l : List Robot) (i j : ℕ) (a : Robot) (h : i ≠ j) :
    (l.set i a).getD j default = l.getD j default := by
  simp [List.getD_eq_getElem?_getD, List.getElem?_set_ne h]

lemma getD_set_oob (l : List Robot) (i : ℕ) (a : Robot) (h : ¬i < l.length) :
    l.set i a = l :=
  List.set_eq_of_length_le (le_of_not_lt h)

/-- Writing an entry whose position agrees with the old one does not change
the position read back at that index. -/
lemma getD_set_pos (l : List Robot) (i : ℕ) (r : Robot)
    (hpos : r.position = (l.getD i default).position) :
    ((l.set i r).getD i default).position = (l.getD i default).position := by
  by_cases hi : i < l.length
  · rw [getD_set_self l i r hi, hpos]
  · rw [getD_set_oob l i r hi]

/-- `processHit` never moves any robot: the struck robot keeps its position. -/
lemma processHit_keeps_position (k : Consts) (i : ℕ) (bots : List Robot) (s : Shot) :
    ((processHit k i bots s).getD i default).position =
      (bots.getD i default).position := by
  simp only [processHit]
  split_ifs with h1 h2 h3 h4 h5 <;>
    first
      | exact getD_set_pos _ _ _ rfl
      | (unfold updateAt
         by_cases ho : s.owner = i
         · subst ho
           by_cases hi : s.owner < bots.length
           · rw [getD_set_self _ _ _ (by simpa using hi), getD_set_self _ _ _ hi]
           · rw [getD_set_oob _ _ _ (by simpa using hi), getD_set_oob _ _ _ hi]
         · rw [getD_set_ne _ _ _ _ (fun hoe => ho hoe)]
           exact getD_set_pos _ _ _ rfl)

/-- Every projectile surviving a bot's shot loop was not in contact with
that bot: a contacting projectile is unconditionally removed. -/
lemma shotLoop_survivors (k : Consts) (i : ℕ) :
    ∀ (shots : List Shot) (bots : List Robot),
      ∀ s' ∈ (shotLoop k i bots shots).2,
        ¬((s'.position - (bots.getD i default).position).length < k.RADIUS) := by
  intro shots
  induction shots with
  | nil => intro bots s' hs'; cases hs'
  | cons s rest ih =>
      intro bots s' hs'
      by_cases hc : (s.position - (bots.getD i default).position).length < k.RADIUS
      · have hgo : shotLoop k i bots (s :: rest) =
            ((shotLoop k i (processHit k i bots s) rest).1,
              (shotLoop k i (processHit k i bots s) rest).2) := by
          simp only [shotLoop]
          rw [if_pos hc]
        rw [hgo] at hs'
        have := ih (processHit k i bots s) s' hs'
        rwa [processHit_keeps_position] at this
      · have hgo : shotLoop k i bots (s :: rest) =
            ((shotLoop k i bots rest).1, s :: (shotLoop k i bots rest).2) := by
          simp only [shotLoop]
          rw [if_neg hc]
        rw [hgo] at hs'
        rcases List.mem_cons.mp hs' with rfl | hs''
        · exact hc
        · exact ih bots s' hs''

/-- Resolution of a projectile contact on an inactive robot (a corpse):
no damage, but the shot heat, the scaled shot velocity, and the angular
impulse are all applied. -/
lemma processHit_inactive (k : Consts) (i : ℕ) (bots : List Robot) (s : Shot)
    (hb : (bots.getD i default).active = false) :
    processHit k i bots s =
      bots.set i
        { bots.getD i default with
            temperature := (bots.getD i default).temperature + k.SHOT_COLLISION_HEAT
            velocity :=
              (bots.getD i default).velocity + s.velocity.mulS k.SHOT_IMPACT_VEL
            angular_velocity :=
              (bots.getD i default).angular_velocity +
                s.velocity.length * k.SHOT_IMPACT_ANG } := by
  unfold processHit
  split_ifs with h1 <;> simp_all

/-- Resolution of a projectile contact on an active robot: the fixed shot
damage, the shot heat and the scaled shot velocity are applied, and no
angular impulse is added. -/
lemma processHit_active_fields (k : Consts) (i : ℕ) (bots : List Robot) (s : Shot)
    (hi : i < bots.length) (hb : (bots.getD i default).active = true) :
    ((processHit k i bots s).getD i default).health
        = (bots.getD i default).health - k.SHOT_DAMAGE ∧
      ((processHit k i bots s).getD i default).temperature
        = (bots.getD i default).temperature + k.SHOT_COLLISION_HEAT ∧
      ((processHit k i bots s).getD i default).velocity
        = (bots.getD i default).velocity + s.velocity.mulS k.SHOT_IMPACT_VEL ∧
      ((processHit k i bots s).getD i default).angular_velocity
        = (bots.getD i default).angular_velocity := by
  simp only [processHit]
  split_ifs with h1 h2
  · simp_all
  · -- lethal hit: kill credit is recorded around the same field updates
    unfold updateAt
    by_cases ho : s.owner = i
    · subst ho
      rw [getD_set_self _ _ _ (by simpa using hi)]
      rw [getD_set_self _ _ _ hi]
      simp_all
    · rw [getD_set_ne _ _ _ _ (fun hoe => ho hoe)]
      rw [getD_set_self _ _ _ hi]
      simp_all
  · rw [getD_set_self _ _ _ hi]
    simp_all

/-- The corpse of the C3 scenario: a dead robot at rest. -/
def c3B : Robot := { calmBot ⟨50, 50⟩ 50 0 (1 / 2) 0 with active := false }

/-- A projectile in contact with that corpse. -/
def c3Shot : Shot := { owner := 1, position := ⟨50, 50⟩, velocity := ⟨1, 0⟩ }

/-- C3 (counterexample).  A projectile hitting a corpse does not leave the
corpse's translational velocity and temperature unchanged, contrary to the
claim: with the concrete configuration `Kc` the corpse gains the scaled
shot velocity `(1/2, 0)` and the shot heat `1/10` (in addition to the
angular impulse), and the projectile is removed. -/
theorem c3_counterexample :
    shotLoop Kc 0 [c3B] [c3Shot] =
      ([{ c3B with
            temperature := 50 + 1 / 10
            velocity := ⟨1 / 2, 0⟩
            angular_velocity := 1 / 100 }], []) ∧
      (⟨1 / 2, 0⟩ : Vec) ≠ c3B.velocity ∧
        (50 : ℝ) + 1 / 10 ≠ c3B.temperature := by
  have hb : ([c3B].getD 0 default).active = false := rfl
  have hc : (c3Shot.position - ([c3B].getD 0 default).position).length < Kc.RADIUS := by
    show ((⟨50, 50⟩ : Vec) - ⟨50, 50⟩).length < Kc.RADIUS
    rw [Vec.sub_def]
    norm_num
    rw [Vec.length_zero]
    norm_num [Kc]
  constructor
  · have hgo : shotLoop Kc 0 [c3B] [c3Shot] =
        ((shotLoop Kc 0 (processHit Kc 0 [c3B] c3Shot) []).1,
          (shotLoop Kc 0 (processHit Kc 0 [c3B] c3Shot) []).2) := by
      simp only [shotLoop]
      rw [if_pos hc]
    have hlen1 : (Vec.mk 1 0).length = 1 := by
      rw [Vec.length_x]
      norm_num
    rw [hgo, processHit_inactive Kc 0 [c3B] c3Shot hb]
    refine Prod.ext ?_ rfl
    show [c3B].set 0 _ = _
    simp only [List.set]
    refine congrArg (fun z => [z]) ?_
    ext <;>
      simp [c3B, c3Shot, calmBot, Kc, hlen1, Vec.add_def, Vec.mulS]
  · constructor
    · intro h
      have := congrArg Vec.x h
      norm_num [c3B, calmBot] at this
    · intro h
      norm_num [c3B, calmBot] at h

/-- C3 (amended).  When a projectile contacts a robot: if the robot is
active, the fixed shot damage is subtracted, the fixed shot heat is added,
and the shot velocity scaled by `SHOT_IMPACT_VEL` is added to its velocity,
with no angular impulse; if the robot is inactive, no damage is applied but
the same heat and scaled shot velocity are applied together with an angular
impulse proportional to the projectile's speed; in both cases the contacting
projectile is removed from the shot list. -/
theorem c3_projectile_contact (k : Consts) (i : ℕ) (bots : List Robot) (s : Shot) :
    (i < bots.length → (bots.getD i default).active = true →
      ((processHit k i bots s).getD i default).health
          = (bots.getD i default).health - k.SHOT_DAMAGE ∧
        ((processHit k i bots s).getD i default).temperature
          = (bots.getD i default).temperature + k.SHOT_COLLISION_HEAT ∧
        ((processHit k i bots s).getD i default).velocity
          = (bots.getD i default).velocity + s.velocity.mulS k.SHOT_IMPACT_VEL ∧
        ((processHit k i bots s).getD i default).angular_velocity
          = (bots.getD i default).angular_velocity) ∧
    ((bots.getD i default).active = false →
      processHit k i bots s =
        bots.set i
          { bots.getD i default with
              temperature := (bots.getD i default).temperature + k.SHOT_COLLISION_HEAT
              velocity :=
                (bots.getD i default).velocity + s.velocity.mulS k.SHOT_IMPACT_VEL
              angular_velocity :=
                (bots.getD i default).angular_velocity +
                  s.velocity.length * k.SHOT_IMPACT_ANG }) ∧
    ∀ (shots : List Shot), ∀ s' ∈ (shotLoop k i bots shots).2,
      ¬((s'.position - (bots.getD i default).position).length < k.RADIUS) :=
  ⟨fun hi hb => processHit_active_fields k i bots s hi hb,
    fun hb => processHit_inactive k i bots s hb,
    fun shots => shotLoop_survivors k i shots bots⟩

/-- The per-robot invariants of claim C2 that actually survive a tick:
health bounded above, both scan-arc fields inside `[MIN_SCAN_ARC, TAU]`. -/
def BotInv (k : Consts) (b : Robot) : Prop :=
  b.health ≤ k.MAX_HEALTH ∧ k.MIN_SCAN_ARC ≤ b.scan_arc ∧ b.scan_arc ≤ cTAU ∧
    k.MIN_SCAN_ARC ≤ b.target_arc ∧ b.target_arc ≤ cTAU

/-- Sign conditions on the configuration under which the surviving
invariants are preserved. -/
def KOk (k : Consts) : Prop :=
  0 ≤ k.SHOT_DAMAGE ∧ 0 ≤ k.TEMPERATURE_DAMAGE ∧ 0 ≤ k.MAX_HEALTH ∧
    (∀ sp, 0 ≤ sp → 0 ≤ k.wall_collision_damage sp) ∧
    (∀ sp, 0 ≤ sp → 0 ≤ k.bot_collision_damage sp) ∧ k.MIN_SCAN_ARC ≤ cTAU

lemma Vec.length_nonneg (v : Vec) : 0 ≤ v.length := Real.sqrt_nonneg _

lemma getD_mem (l : List Robot) (i : ℕ) (h : i < l.length) : l.getD i default ∈ l := by
  rw [List.getD_eq_getElem?_getD, List.getElem?_eq_getElem h]
  exact List.getElem_mem h

/-- Writing a value into a list preserves an all-elements invariant,
provided the value satisfies it whenever the write is in bounds. -/
lemma botInv_set_val (k : Consts) (bots : List Robot) (i : ℕ) (x : Robot)
    (hall : ∀ b ∈ bots, BotInv k b) (hx : i < bots.length → BotInv k x) :
    ∀ b ∈ bots.set i x, BotInv k b := by
  by_cases hi : i < bots.length
  · intro b hb
    rcases List.mem_or_eq_of_mem_set hb with h | h
    · exact hall b h
    · exact h ▸ hx hi
  · rw [getD_set_oob _ _ _ hi]
    exact hall

lemma stepIntegrate_hst (k : Consts) (b : Robot) :
    (stepIntegrate k b).health = b.health ∧ (stepIntegrate k b).scan_arc = b.scan_arc ∧
      (stepIntegrate k b).target_arc = b.target_arc := by
  simp only [stepIntegrate]
  split_ifs <;> exact ⟨rfl, rfl, rfl⟩

lemma stepDeath_hst (k : Consts) (r : ℝ) (b : Robot) :
    ((stepDeath k r b).health = b.health ∨ (stepDeath k r b).health = 0) ∧
      (stepDeath k r b).scan_arc = b.scan_arc ∧
        (stepDeath k r b).target_arc = b.target_arc := by
  simp only [stepDeath]
  split_ifs
  · exact ⟨Or.inr rfl, rfl, rfl⟩
  · exact ⟨Or.inl rfl, rfl, rfl⟩

lemma stepWallX_hst (k : Consts) (b : Robot)
    (hw : ∀ sp, 0 ≤ sp → 0 ≤ k.wall_collision_damage sp) :
    (stepWallX k b).health ≤ b.health ∧ (stepWallX k b).scan_arc = b.scan_arc ∧
      (stepWallX k b).target_arc = b.target_arc := by
  simp only [stepWallX]
  split_ifs <;>
    exact ⟨by
      first
        | exact le_refl _
        | exact sub_le_self _ (hw _ (Vec.length_nonneg _)), rfl, rfl⟩

lemma stepWallY_hst (k : Consts) (b : Robot)
    (hw : ∀ sp, 0 ≤ sp → 0 ≤ k.wall_collision_damage sp) :
    (stepWallY k b).health ≤ b.health ∧ (stepWallY k b).scan_arc = b.scan_arc ∧
      (stepWallY k b).target_arc = b.target_arc := by
  simp only [stepWallY]
  split_ifs <;>
    exact ⟨by
      first
        | exact le_refl _
        | exact sub_le_self _ (hw _ (Vec.length_nonneg _)), rfl, rfl⟩

lemma execCmd_health_scan (k : Consts) (i : ℕ) (st : Robot × List Shot) (c : RCmd) :
    (execCmd k i st c).1.health = st.1.health ∧
      (execCmd k i st c).1.scan_arc = st.1.scan_arc := by
  cases c with
  | accelerate d => exact ⟨rfl, rfl⟩
  | turn d => exact ⟨rfl, rfl⟩
  | rotateCannon d => exact ⟨rfl, rfl⟩
  | setArc w => exact ⟨rfl, rfl⟩
  | shoot =>
      simp only [execCmd]
      split_ifs <;> exact ⟨rfl, rfl⟩

lemma runCmds_health_scan (k : Consts) (i : ℕ) (cs : List RCmd) :
    ∀ (b : Robot) (sh : List Shot),
      (runCmds k i b sh cs).1.health = b.health ∧
        (runCmds k i b sh cs).1.scan_arc = b.scan_arc := by
  induction cs with
  | nil => intro b sh; exact ⟨rfl, rfl⟩
  | cons c cs ih =>
      intro b sh
      have hstep : runCmds k i b sh (c :: cs) =
          runCmds k i (execCmd k i (b, sh) c).1 (execCmd k i (b, sh) c).2 cs := rfl
      rw [hstep]
      obtain ⟨e1, e2⟩ := execCmd_health_scan k i (b, sh) c
      obtain ⟨g1, g2⟩ := ih (execCmd k i (b, sh) c).1 (execCmd k i (b, sh) c).2
      exact ⟨by rw [g1, e1], by rw [g2, e2]⟩

lemma stepStrategy_inv (k : Consts) (inv : Robot → List Shot → Robot × List Shot)
    (hinvoke : ∀ b' sh', (inv b' sh').1.health = b'.health ∧
      (inv b' sh').1.scan_arc = b'.scan_arc)
    (b : Robot) (sh : List Shot) (hmt : k.MIN_SCAN_ARC ≤ cTAU) (hb : BotInv k b) :
    BotInv k (stepStrategy k inv (b, sh)).1 := by
  simp only [stepStrategy]
  split_ifs with ha
  · obtain ⟨e1, e2⟩ := hinvoke b sh
    refine ⟨?_, ?_, ?_, ?_, ?_⟩
    · show (inv b sh).1.health ≤ _
      rw [e1]; exact hb.1
    · show k.MIN_SCAN_ARC ≤ (inv b sh).1.scan_arc
      rw [e2]; exact hb.2.1
    · show (inv b sh).1.scan_arc ≤ cTAU
      rw [e2]; exact hb.2.2.1
    · show k.MIN_SCAN_ARC ≤ clampArc k (inv b sh).1.target_arc
      exact le_max_right _ _
    · show clampArc k (inv b sh).1.target_arc ≤ cTAU
      exact max_le (min_le_right _ _) hmt
  · exact hb

/-- One full `Bot.update` preserves the surviving invariants, for any
strategy effect that can only act through the `Handler` commands. -/
lemma update_inv (k : Consts) (inv : Robot → List Shot → Robot × List Shot) (r : ℝ)
    (b : Robot) (sh : List Shot)
    (hinvoke : ∀ b' sh', (inv b' sh').1.health = b'.health ∧
      (inv b' sh').1.scan_arc = b'.scan_arc)
    (hk : KOk k) (hb : BotInv k b) : BotInv k (Robot.update k inv r b sh).1 := by
  obtain ⟨hk1, hk2, hk3, hk4, hk5, hk6⟩ := hk
  have g1 : BotInv k (stepIntegrate k b) := by
    obtain ⟨e1, e2, e3⟩ := stepIntegrate_hst k b
    exact ⟨e1 ▸ hb.1, e2 ▸ hb.2.1, e2 ▸ hb.2.2.1, e3 ▸ hb.2.2.2.1, e3 ▸ hb.2.2.2.2⟩
  have g2 : BotInv k (stepDrain k (stepIntegrate k b)) := g1
  have g3 : BotInv k (stepArc (stepDrain k (stepIntegrate k b))) := by
    rw [stepArc_eq]
    exact ⟨g2.1, g2.2.2.2.1, g2.2.2.2.2, g2.2.2.2.1, g2.2.2.2.2⟩
  have g4 : BotInv k (stepDeath k r (stepArc (stepDrain k (stepIntegrate k b)))) := by
    obtain ⟨e1, e2, e3⟩ := stepDeath_hst k r (stepArc (stepDrain k (stepIntegrate k b)))
    refine ⟨?_, e2 ▸ g3.2.1, e2 ▸ g3.2.2.1, e3 ▸ g3.2.2.2.1, e3 ▸ g3.2.2.2.2⟩
    rcases e1 with e1 | e1
    · rw [e1]; exact g3.1
    · rw [e1]; exact hk3
  have g5 : BotInv k (stepThermal k (stepDeath k r (stepArc (stepDrain k
      (stepIntegrate k b))))) := by
    rw [stepThermal_eq]
    refine ⟨?_, g4.2.1, g4.2.2.1, g4.2.2.2.1, g4.2.2.2.2⟩
    show (if _ then _ - k.TEMPERATURE_DAMAGE else _) ≤ k.MAX_HEALTH
    split_ifs
    · exact le_trans (sub_le_self _ hk2) g4.1
    · exact g4.1
  have g6 : BotInv k (stepWallX k (stepThermal k (stepDeath k r (stepArc (stepDrain k
      (stepIntegrate k b)))))) := by
    obtain ⟨e1, e2, e3⟩ := stepWallX_hst k _ hk4
    exact ⟨le_trans e1 g5.1, e2 ▸ g5.2.1, e2 ▸ g5.2.2.1, e3 ▸ g5.2.2.2.1, e3 ▸ g5.2.2.2.2⟩
  have g7 : BotInv k (stepWallY k (stepWallX k (stepThermal k (stepDeath k r (stepArc
      (stepDrain k (stepIntegrate k b))))))) := by
    obtain ⟨e1, e2, e3⟩ := stepWallY_hst k _ hk4
    exact ⟨le_trans e1 g6.1, e2 ▸ g6.2.1, e2 ▸ g6.2.2.1, e3 ▸ g6.2.2.2.1, e3 ▸ g6.2.2.2.2⟩
  exact stepStrategy_inv k inv hinvoke _ sh hk6 g7

/-- `pairResolve` preserves the surviving invariants. -/
lemma pairResolve_inv (k : Consts) (i j : ℕ) (bots : List Robot) (hk : KOk k)
    (hall : ∀ b ∈ bots, BotInv k b) : ∀ b ∈ pairResolve k i j bots, BotInv k b := by
  obtain ⟨hk1, hk2, hk3, hk4, hk5, hk6⟩ := hk
  simp only [pairResolve]
  split_ifs <;>
    first
      | exact hall
      | (refine botInv_set_val k _ j _ (botInv_set_val k _ i _ hall ?_) ?_
         · intro hi
           have hbase := hall _ (getD_mem bots i hi)
           refine ⟨?_, hbase.2.1, hbase.2.2.1, hbase.2.2.2.1, hbase.2.2.2.2⟩
           first
             | exact hbase.1
             | exact le_trans (sub_le_self _ (hk5 _ (Vec.length_nonneg _))) hbase.1
         · intro hj
           have hbase := hall _ (getD_mem bots j (by simpa using hj))
           refine ⟨?_, hbase.2.1, hbase.2.2.1, hbase.2.2.2.1, hbase.2.2.2.2⟩
           first
             | exact hbase.1
             | exact le_trans (sub_le_self _ (hk5 _ (Vec.length_nonneg _))) hbase.1)

lemma botInv_updateAt (k : Consts) (l : List Robot) (n : ℕ) (f : Robot → Robot)
    (hall : ∀ b ∈ l, BotInv k b) (hf : ∀ o, BotInv k o → BotInv k (f o)) :
    ∀ x ∈ updateAt n f l, BotInv k x := by
  unfold updateAt
  refine botInv_set_val k l n _ hall ?_
  intro hn
  exact hf _ (hall _ (getD_mem l n hn))

/-- `processHit` preserves the surviving invariants. -/
lemma processHit_inv (k : Consts) (i : ℕ) (bots : List Robot) (s : Shot) (hk : KOk k)
    (hall : ∀ b ∈ bots, BotInv k b) : ∀ x ∈ processHit k i bots s, BotInv k x := by
  obtain ⟨hk1, hk2, hk3, hk4, hk5, hk6⟩ := hk
  simp only [processHit]
  split_ifs <;>
    first
      | (refine botInv_set_val k _ i _ hall ?_
         intro hi
         have hbase := hall _ (getD_mem bots i hi)
         refine ⟨?_, hbase.2.1, hbase.2.2.1, hbase.2.2.2.1, hbase.2.2.2.2⟩
         first
           | exact hbase.1
           | exact le_trans (sub_le_self _ hk1) hbase.1)
      | (refine botInv_updateAt k _ s.owner _
            (botInv_set_val k _ i _ hall ?_) (fun o ho => ho)
         intro hi
         have hbase := hall _ (getD_mem bots i hi)
         refine ⟨?_, hbase.2.1, hbase.2.2.1, hbase.2.2.2.1, hbase.2.2.2.2⟩
         first
           | exact hbase.1
           | exact le_trans (sub_le_self _ hk1) hbase.1)

/-- The per-slot shot loop preserves the surviving invariants. -/
lemma shotLoop_inv (k : Consts) (i : ℕ) (shots : List Shot) :
    ∀ (bots : List Robot), KOk k → (∀ b ∈ bots, BotInv k b) →
      ∀ x ∈ (shotLoop k i bots shots).1, BotInv k x := by
  induction shots with
  | nil => intro bots _ hall x hx; exact hall x hx
  | cons s rest ih =>
      intro bots hk hall x hx
      by_cases hc : (s.position - (bots.getD i default).position).length < k.RADIUS
      · have hgo : (shotLoop k i bots (s :: rest)).1 =
            (shotLoop k i (processHit k i bots s) rest).1 := by
          simp only [shotLoop]
          rw [if_pos hc]
        rw [hgo] at hx
        exact ih _ hk (processHit_inv k i bots s hk hall) x hx
      · have hgo : (shotLoop k i bots (s :: rest)).1 = (shotLoop k i bots rest).1 := by
          simp only [shotLoop]
          rw [if_neg hc]
        rw [hgo] at hx
        exact ih _ hk hall x hx

lemma pairFold_inv (k : Consts) (i : ℕ) (js : List ℕ) :
    ∀ (bots : List Robot), KOk k → (∀ b ∈ bots, BotInv k b) →
      ∀ x ∈ js.foldl (fun bs j => pairResolve k i j bs) bots, BotInv k x := by
  induction js with
  | nil => intro bots _ hall x hx; exact hall x hx
  | cons j js ih =>
      intro bots hk hall x hx
      exact ih (pairResolve k i j bots) hk (pairResolve_inv k i j bots hk hall) x hx

lemma slotCollide_inv (k : Consts) (i : ℕ) (bots : List Robot) (hk : KOk k)
    (hall : ∀ b ∈ bots, BotInv k b) : ∀ x ∈ slotCollide k i bots, BotInv k x :=
  pairFold_inv k i (List.range bots.length) bots hk hall

lemma slotBotUpdate_inv (k : Consts) (strat : Strat) (r : ℝ)
    (st : List Robot × List Shot) (i : ℕ) (hk : KOk k)
    (hall : ∀ b ∈ st.1, BotInv k b) :
    ∀ x ∈ (slotBotUpdate k strat r st i).1, BotInv k x := by
  simp only [slotBotUpdate]
  refine botInv_set_val k _ i _ hall ?_
  intro hi
  refine update_inv k _ r _ st.2 ?_ hk (hall _ (getD_mem st.1 i hi))
  intro b' sh'
  exact runCmds_health_scan k i (strat (st.1.set i b') sh' i) b' sh'

lemma slotUpdate_inv (k : Consts) (strat : Strat) (r : ℝ)
    (st : List Robot × List Shot) (i : ℕ) (hk : KOk k)
    (hall : ∀ b ∈ st.1, BotInv k b) :
    ∀ x ∈ (slotUpdate k strat r st i).1, BotInv k x := by
  simp only [slotUpdate]
  exact shotLoop_inv k i _ _ hk
    (slotCollide_inv k i _ hk (slotBotUpdate_inv k strat r st i hk hall))

lemma slotsFold_inv (k : Consts) (strat : Strat) (rng : ℕ → ℝ) (is : List ℕ) :
    ∀ (st : List Robot × List Shot), KOk k → (∀ b ∈ st.1, BotInv k b) →
      ∀ x ∈ (is.foldl (fun st2 i => slotUpdate k strat (rng i) st2 i) st).1, BotInv k x := by
  induction is with
  | nil => intro st _ hall x hx; exact hall x hx
  | cons i is ih =>
      intro st hk hall x hx
      exact ih (slotUpdate k strat (rng i) st i) hk
        (slotUpdate_inv k strat (rng i) st i hk hall) x hx

/-- C2 (amended).  After every completed arena tick, every robot still
satisfies `health ≤ MAX_HEALTH` and `MIN_SCAN_ARC ≤ scan_arc ≤ TAU` (and the
same bounds for the requested arc), for every strategy expressible through
the `Handler` commands; of the claimed temperature bounds neither survives a
tick boundary — cooling can undershoot `NORMAL_TEMPERATURE ≤ temperature`,
and wall/collision/shot heat is added after the thermal clamp, breaking
`temperature ≤ MAX_TEMPERATURE` — and `0 ≤ health` fails as well (each
refuted in the counterexample). -/
theorem c2_tick_invariants (k : Consts) (strat : Strat) (rng : ℕ → ℝ) (st : ArenaSt)
    (hk : KOk k) (hinv : ∀ b ∈ st.bots, BotInv k b) :
    ∀ b ∈ (arenaUpdate k strat rng st).bots, BotInv k b := by
  simp only [arenaUpdate]
  exact slotsFold_inv k strat rng (List.range st.bots.length)
    (st.bots, shotsPhase k st.shots) hk hinv

/-- Witness for `c2_tick_invariants` on a one-robot arena under `Kc`. -/
theorem c2_tick_invariants_witness :
    (KOk Kc ∧
        ∀ b ∈ (ArenaSt.mk [calmBot ⟨50, 50⟩ 50 100 (1 / 2) 0] [] 0).bots, BotInv Kc b) ∧
      ∀ b ∈ (arenaUpdate Kc noopStrat (fun _ => 0)
          (ArenaSt.mk [calmBot ⟨50, 50⟩ 50 100 (1 / 2) 0] [] 0)).bots,
        BotInv Kc b := by
  have htau : (1 : ℝ) / 2 ≤ cTAU := by
    rw [cTAU]
    nlinarith [Real.pi_gt_three]
  have hmtau : Kc.MIN_SCAN_ARC ≤ cTAU := by
    show (1 : ℝ) / 10 ≤ cTAU
    rw [cTAU]
    nlinarith [Real.pi_gt_three]
  have hkok : KOk Kc := by
    refine ⟨by norm_num [Kc], by norm_num [Kc], by norm_num [Kc], ?_, ?_, hmtau⟩
    · intro sp hsp
      show (0 : ℝ) ≤ sp / 5
      linarith
    · intro sp hsp
      show (0 : ℝ) ≤ sp / 5
      linarith
  have hbinv : ∀ b ∈ [calmBot ⟨50, 50⟩ 50 100 (1 / 2) 0], BotInv Kc b := by
    intro b hb
    rcases List.mem_singleton.mp hb with rfl
    exact ⟨by norm_num [Kc, calmBot], by norm_num [Kc, calmBot], by simpa [calmBot] using htau,
      by norm_num [Kc, calmBot], by simpa [calmBot] using htau⟩
  exact ⟨⟨hkok, hbinv⟩,
    c2_tick_invariants Kc noopStrat (fun _ => 0) _ hkok hbinv⟩

lemma pendBot_zero (pos : Vec) (t hl arc : ℝ) (idx : ℤ) :
    pendBot pos t hl arc idx 0 0 = calmBot pos t hl arc idx := rfl

/-- `Bot.update` on a fully calm robot away from walls with a no-op
strategy: only the thermal relaxation acts. -/
lemma update_calm (k : Consts) (inv : Robot → List Shot → Robot × List Shot) (r : ℝ)
    (pos : Vec) (t hl arc : ℝ) (idx : ℤ) (sh : List Shot)
    (hinv : ∀ b' sh', inv b' sh' = (b', sh'))
    (hh : 0 < hl) (hdang : t < k.DANGEROUS_TEMPERATURE)
    (hx1 : k.RADIUS ≤ pos.x) (hx2 : pos.x ≤ k.ARENA_WIDTH - k.RADIUS)
    (hy1 : k.RADIUS ≤ pos.y) (hy2 : pos.y ≤ k.ARENA_HEIGHT - k.RADIUS)
    (harc1 : k.MIN_SCAN_ARC ≤ arc) (harc2 : arc ≤ cTAU) :
    Robot.update k inv r (calmBot pos t hl arc idx) sh =
      (calmBot pos
        (min ((if k.NORMAL_TEMPERATURE < t then t - k.COOLING_RATE else t) +
            k.velocity_heat 0) k.MAX_TEMPERATURE) hl arc idx, sh) := by
  have h := update_still k inv r pos t hl arc 0 0 idx sh hinv hh hdang hx1 hx2 hy1 hy2
    harc1 harc2
  simp only [minabs_zero, add_zero, sub_zero, pendBot_zero] at h
  exact h

lemma pairResolve_self (k : Consts) (i : ℕ) (bots : List Robot) :
    pairResolve k i i bots = bots := by
  simp [pairResolve]

lemma pairResolve_far (k : Consts) (i j : ℕ) (bots : List Robot) (hij : i ≠ j)
    (hfar : ¬((bots.getD i default).position - (bots.getD j default).position).length ≤
      k.RADIUS * 2) :
    pairResolve k i j bots = bots := by
  simp only [pairResolve]
  rw [if_neg hij, if_neg (fun hc => hfar hc.2)]

lemma shotLoop_nil (k : Consts) (i : ℕ) (bots : List Robot) :
    shotLoop k i bots [] = (bots, []) := rfl

lemma shotLoop_cons_hit (k : Consts) (i : ℕ) (bots : List Robot) (s : Shot)
    (rest : List Shot)
    (hc : (s.position - (bots.getD i default).position).length < k.RADIUS) :
    shotLoop k i bots (s :: rest) = shotLoop k i (processHit k i bots s) rest := by
  simp only [shotLoop]
  rw [if_pos hc]

lemma shotLoop_cons_miss (k : Consts) (i : ℕ) (bots : List Robot) (s : Shot)
    (rest : List Shot)
    (hc : ¬(s.position - (bots.getD i default).position).length < k.RADIUS) :
    shotLoop k i bots (s :: rest) =
      ((shotLoop k i bots rest).1, s :: (shotLoop k i bots rest).2) := by
  simp only [shotLoop]
  rw [if_neg hc]

lemma range_two : List.range 2 = [0, 1] := rfl

/-- Shooter of the C2 scenario (far from the victim). -/
def c2S : Robot := calmBot ⟨500, 50⟩ 50 100 (1 / 2) 0

/-- Victim of the C2 scenario: full claim-conformant state, health `1`,
temperature `50.5` slightly above `NORMAL_TEMPERATURE = 50`. -/
def c2V : Robot := calmBot ⟨50, 50⟩ (101 / 2) 1 (1 / 2) 1

/-- A projectile one step away from the victim, fired by the shooter. -/
def c2shot : Shot := ⟨0, ⟨49, 50⟩, ⟨1, 0⟩⟩

/-- The same projectile after the projectile phase. -/
def c2shotM : Shot := ⟨0, ⟨50, 50⟩, ⟨1, 0⟩⟩

/-- The victim at the end of the tick. -/
def c2Vend : Robot :=
  { calmBot ⟨50, 50⟩ (248 / 5) 1 (1 / 2) 1 with
      health := -9
      velocity := ⟨1 / 2, 0⟩
      killed_by := some 0 }

/-- The shooter at the end of the tick. -/
def c2Send : Robot := { c2S with killed := [1] }

lemma c2_dist_SV : ((c2S.position : Vec) - c2V.position).length = 450 := by
  show (Vec.mk 500 50 - Vec.mk 50 50).length = 450
  rw [Vec.sub_def, show Vec.mk (500 - 50 : ℝ) (50 - 50 : ℝ) = Vec.mk 450 0 by norm_num,
    Vec.length_x]
  norm_num

lemma c2_dist_VS : ((c2V.position : Vec) - c2S.position).length = 450 := by
  show (Vec.mk 50 50 - Vec.mk 500 50).length = 450
  rw [Vec.sub_def, show Vec.mk (50 - 500 : ℝ) (50 - 50 : ℝ) = Vec.mk (-450) 0 by norm_num,
    Vec.length_x]
  norm_num

lemma c2_tau_half : (1 : ℝ) / 2 ≤ cTAU := by
  rw [cTAU]
  nlinarith [Real.pi_gt_three]

lemma c2_shotsPhase : shotsPhase Kc [c2shot] = [c2shotM] := by
  simp only [shotsPhase, List.filterMap]
  rw [if_pos (by norm_num [Kc, c2shot])]
  simp [c2shot, c2shotM, Kc, Vec.add_def]
  norm_num

lemma c2_updV : ∀ inv : Robot → List Shot → Robot × List Shot,
    (∀ b' sh', inv b' sh' = (b', sh')) →
    Robot.update Kc inv 0 c2V [c2shotM] =
      (calmBot ⟨50, 50⟩ (99 / 2) 1 (1 / 2) 1, [c2shotM]) := by
  intro inv hinv
  rw [show (c2V : Robot) = calmBot ⟨50, 50⟩ (101 / 2) 1 (1 / 2) 1 from rfl]
  rw [update_calm Kc inv 0 ⟨50, 50⟩ (101 / 2) 1 (1 / 2) 1 [c2shotM] hinv (by norm_num)
    (by norm_num [Kc]) (by norm_num [Kc]) (by norm_num [Kc]) (by norm_num [Kc])
    (by norm_num [Kc]) (by norm_num [Kc]) c2_tau_half]
  norm_num [Kc, min_def]

lemma c2_updS : ∀ inv : Robot → List Shot → Robot × List Shot,
    (∀ b' sh', inv b' sh' = (b', sh')) →
    Robot.update Kc inv 0 c2S [c2shotM] = (c2S, [c2shotM]) := by
  intro inv hinv
  rw [show (c2S : Robot) = calmBot ⟨500, 50⟩ 50 100 (1 / 2) 0 from rfl]
  rw [update_calm Kc inv 0 ⟨500, 50⟩ 50 100 (1 / 2) 0 [c2shotM] hinv (by norm_num)
    (by norm_num [Kc]) (by norm_num [Kc]) (by norm_num [Kc]) (by norm_num [Kc])
    (by norm_num [Kc]) (by norm_num [Kc]) c2_tau_half]
  norm_num [Kc, min_def]

lemma set_pair_zero (a b x : Robot) : ([a, b] : List Robot).set 0 x = [x, b] := rfl

lemma set_pair_one (a b x : Robot) : ([a, b] : List Robot).set 1 x = [a, x] := rfl

lemma c2_slot0 : slotUpdate Kc noopStrat 0 ([c2S, c2V], [c2shotM]) 0 =
    ([c2S, c2V], [c2shotM]) := by
  have hbu : slotBotUpdate Kc noopStrat 0 ([c2S, c2V], [c2shotM]) 0 =
      ([c2S, c2V], [c2shotM]) := by
    simp only [slotBotUpdate]
    rw [show ([c2S, c2V] : List Robot).getD 0 default = c2S from rfl]
    rw [c2_updS (fun b' sh' =>
      runCmds Kc 0 b' sh' (noopStrat (([c2S, c2V] : List Robot).set 0 b') sh' 0))
      (fun _ _ => rfl)]
    rfl
  have hcol : slotCollide Kc 0 [c2S, c2V] = [c2S, c2V] := by
    simp only [slotCollide]
    rw [show ([c2S, c2V] : List Robot).length = 2 from rfl, range_two]
    simp only [List.foldl]
    rw [pairResolve_self, pairResolve_far Kc 0 1 [c2S, c2V] (by norm_num)
      (by rw [show (([c2S, c2V] : List Robot).getD 0 default).position -
          (([c2S, c2V] : List Robot).getD 1 default).position = c2S.position - c2V.position
          from rfl, c2_dist_SV]
          norm_num [Kc])]
  have hsl : shotLoop Kc 0 [c2S, c2V] [c2shotM] = ([c2S, c2V], [c2shotM]) := by
    rw [shotLoop_cons_miss Kc 0 [c2S, c2V] c2shotM []
      (by rw [show (c2shotM.position : Vec) - (([c2S, c2V] : List Robot).getD 0
          default).position = Vec.mk (50 - 500) (50 - 50) from rfl]
          rw [show Vec.mk (50 - 500 : ℝ) (50 - 50 : ℝ) = Vec.mk (-450) 0 by norm_num,
            Vec.length_x]
          norm_num [Kc]), shotLoop_nil]
  simp only [slotUpdate]
  rw [hbu]
  show shotLoop Kc 0 (slotCollide Kc 0 [c2S, c2V]) [c2shotM] = _
  rw [hcol, hsl]

lemma c2_processHit : processHit Kc 1 [c2S, calmBot ⟨50, 50⟩ (99 / 2) 1 (1 / 2) 1] c2shotM =
    [c2Send, c2Vend] := by
  simp only [processHit]
  rw [if_pos (show (([c2S, calmBot ⟨50, 50⟩ (99 / 2) 1 (1 / 2) 1] : List Robot).getD 1
      default).active = true from rfl)]
  rw [if_neg (show ¬(([c2S, calmBot ⟨50, 50⟩ (99 / 2) 1 (1 / 2) 1] : List Robot).getD 1
      default).active = false by simp [calmBot])]
  rw [if_pos (show (([c2S, calmBot ⟨50, 50⟩ (99 / 2) 1 (1 / 2) 1] : List Robot).getD 1
      default).health - Kc.SHOT_DAMAGE ≤ 0 by norm_num [Kc, calmBot])]
  rw [show (c2shotM.owner : ℕ) = 0 from rfl]
  simp only [updateAt]
  rw [set_pair_one, set_pair_zero]
  simp only [List.cons.injEq]
  refine ⟨rfl, ?_, trivial⟩
  refine Robot.ext rfl ?_ rfl rfl rfl rfl ?_ ?_ rfl rfl rfl rfl rfl rfl rfl rfl rfl rfl
  · show (Vec.mk 0 0) + c2shotM.velocity.mulS Kc.SHOT_IMPACT_VEL = (⟨1 / 2, 0⟩ : Vec)
    show (Vec.mk 0 0) + (Vec.mk 1 0).mulS Kc.SHOT_IMPACT_VEL = (⟨1 / 2, 0⟩ : Vec)
    simp only [Vec.mulS, Vec.add_def]
    norm_num [Kc]
  · show (1 : ℝ) - Kc.SHOT_DAMAGE = -9
    norm_num [Kc]
  · show (99 : ℝ) / 2 + Kc.SHOT_COLLISION_HEAT = 248 / 5
    norm_num [Kc]

lemma c2_slot1 : slotUpdate Kc noopStrat 0 ([c2S, c2V], [c2shotM]) 1 =
    ([c2Send, c2Vend], []) := by
  have hbu : slotBotUpdate Kc noopStrat 0 ([c2S, c2V], [c2shotM]) 1 =
      ([c2S, calmBot ⟨50, 50⟩ (99 / 2) 1 (1 / 2) 1], [c2shotM]) := by
    simp only [slotBotUpdate]
    rw [show ([c2S, c2V] : List Robot).getD 1 default = c2V from rfl]
    rw [c2_updV (fun b' sh' =>
      runCmds Kc 1 b' sh' (noopStrat (([c2S, c2V] : List Robot).set 1 b') sh' 1))
      (fun _ _ => rfl)]
    rfl
  have hcol : slotCollide Kc 1 [c2S, calmBot ⟨50, 50⟩ (99 / 2) 1 (1 / 2) 1] =
      [c2S, calmBot ⟨50, 50⟩ (99 / 2) 1 (1 / 2) 1] := by
    simp only [slotCollide]
    rw [show ([c2S, calmBot ⟨50, 50⟩ (99 / 2) 1 (1 / 2) 1] : List Robot).length = 2 from rfl,
      range_two]
    simp only [List.foldl]
    rw [pairResolve_far Kc 1 0 _ (by norm_num)
      (by rw [show (([c2S, calmBot ⟨50, 50⟩ (99 / 2) 1 (1 / 2) 1] : List Robot).getD 1
          default).position - (([c2S, calmBot ⟨50, 50⟩ (99 / 2) 1 (1 / 2) 1] :
          List Robot).getD 0 default).position = Vec.mk (50 - 500) (50 - 50) from rfl]
          rw [show Vec.mk (50 - 500 : ℝ) (50 - 50 : ℝ) = Vec.mk (-450) 0 by norm_num,
            Vec.length_x]
          norm_num [Kc]), pairResolve_self]
  have hsl : shotLoop Kc 1 [c2S, calmBot ⟨50, 50⟩ (99 / 2) 1 (1 / 2) 1] [c2shotM] =
      ([c2Send, c2Vend], []) := by
    rw [shotLoop_cons_hit Kc 1 _ c2shotM []
      (by rw [show (c2shotM.position : Vec) - (([c2S, calmBot ⟨50, 50⟩ (99 / 2) 1 (1 / 2) 1] :
          List Robot).getD 1 default).position = Vec.mk (50 - 50) (50 - 50) from rfl]
          rw [show Vec.mk (50 - 50 : ℝ) (50 - 50 : ℝ) = Vec.mk 0 0 by norm_num,
            Vec.length_zero]
          norm_num [Kc])]
    rw [c2_processHit, shotLoop_nil]
  simp only [slotUpdate]
  rw [hbu]
  show shotLoop Kc 1 (slotCollide Kc 1 [c2S, calmBot ⟨50, 50⟩ (99 / 2) 1 (1 / 2) 1])
    [c2shotM] = _
  rw [hcol, hsl]

/-- The full tick of the C2 scenario. -/
lemma c2_tick : arenaUpdate Kc noopStrat (fun _ => 0) (ArenaSt.mk [c2S, c2V] [c2shot] 0) =
    ArenaSt.mk [c2Send, c2Vend] [] 1 := by
  simp only [arenaUpdate, botsPhase]
  rw [c2_shotsPhase, show ([c2S, c2V] : List Robot).length = 2 from rfl, range_two]
  simp only [List.foldl]
  rw [c2_slot0, c2_slot1]

lemma Vec.abs_x_le_length (v : Vec) : |v.x| ≤ v.length := by
  rw [Vec.length, Vec.dot, ← Real.sqrt_mul_self_eq_abs]
  exact Real.sqrt_le_sqrt (by nlinarith [mul_self_nonneg v.y])

lemma Vec.abs_y_le_length (v : Vec) : |v.y| ≤ v.length := by
  rw [Vec.length, Vec.dot, ← Real.sqrt_mul_self_eq_abs]
  exact Real.sqrt_le_sqrt (by nlinarith [mul_self_nonneg v.x])

/-- A coasting robot: a stationary robot carrying an initial velocity. -/
def moverBot (pos vel : Vec) (t hl arc : ℝ) (idx : ℤ) : Robot :=
  { calmBot pos t hl arc idx with velocity := vel }

/-- One tick of `Bot.update` on a coasting robot that stays away from walls:
it drifts by its velocity, friction damps the velocity, and the thermal
block adds the movement heat of the damped speed. -/
lemma update_mover (k : Consts) (inv : Robot → List Shot → Robot × List Shot) (r : ℝ)
    (pos vel : Vec) (t hl arc : ℝ) (idx : ℤ) (sh : List Shot)
    (hinv : ∀ b' sh', inv b' sh' = (b', sh'))
    (hh : 0 < hl)
    (hdang : t < k.DANGEROUS_TEMPERATURE)
    (hx1 : k.RADIUS ≤ pos.x + vel.x) (hx2 : pos.x + vel.x ≤ k.ARENA_WIDTH - k.RADIUS)
    (hy1 : k.RADIUS ≤ pos.y + vel.y) (hy2 : pos.y + vel.y ≤ k.ARENA_HEIGHT - k.RADIUS)
    (harc1 : k.MIN_SCAN_ARC ≤ arc) (harc2 : arc ≤ cTAU) :
    Robot.update k inv r (moverBot pos vel t hl arc idx) sh =
      (moverBot (pos + vel) (vel.mulS k.FRICTION)
        (min ((if k.NORMAL_TEMPERATURE < t then t - k.COOLING_RATE else t) +
            k.velocity_heat (vel.mulS k.FRICTION).length) k.MAX_TEMPERATURE)
        hl arc idx, sh) := by
  have h1 : stepIntegrate k (moverBot pos vel t hl arc idx) =
      moverBot (pos + vel) (vel.mulS k.FRICTION) t hl arc idx := by
    simp [stepIntegrate, moverBot, calmBot]
  have h2 : stepDrain k (moverBot (pos + vel) (vel.mulS k.FRICTION) t hl arc idx) =
      moverBot (pos + vel) (vel.mulS k.FRICTION) t hl arc idx := by
    rw [stepDrain_eq]
    simp [moverBot, calmBot, minabs_zero, Vec.mulS_zero, Vec.add_zero']
  have h3 : stepArc (moverBot (pos + vel) (vel.mulS k.FRICTION) t hl arc idx) =
      moverBot (pos + vel) (vel.mulS k.FRICTION) t hl arc idx := by
    rw [stepArc_eq]
    simp [moverBot, calmBot]
  have h4 : stepDeath k r (moverBot (pos + vel) (vel.mulS k.FRICTION) t hl arc idx) =
      moverBot (pos + vel) (vel.mulS k.FRICTION) t hl arc idx :=
    stepDeath_skip k r _ (fun hc => absurd hc.1 (not_le.mpr hh))
  have h5 : stepThermal k (moverBot (pos + vel) (vel.mulS k.FRICTION) t hl arc idx) =
      moverBot (pos + vel) (vel.mulS k.FRICTION)
        (min ((if k.NORMAL_TEMPERATURE < t then t - k.COOLING_RATE else t) +
            k.velocity_heat (vel.mulS k.FRICTION).length) k.MAX_TEMPERATURE)
        hl arc idx := by
    rw [stepThermal_eq]
    have hc1 : ¬(k.DANGEROUS_TEMPERATURE ≤
        (moverBot (pos + vel) (vel.mulS k.FRICTION) t hl arc idx).temperature ∧
          (moverBot (pos + vel) (vel.mulS k.FRICTION) t hl arc idx).active = true) :=
      fun hc => absurd hc.1 (not_le.mpr hdang)
    rw [if_neg hc1]
    simp [moverBot, calmBot]
  have h6 : ∀ t', stepWallX k (moverBot (pos + vel) (vel.mulS k.FRICTION) t' hl arc idx) =
      moverBot (pos + vel) (vel.mulS k.FRICTION) t' hl arc idx := by
    intro t'
    exact stepWallX_skip k _ (not_lt.mpr hx1) (not_lt.mpr hx2)
  have h7 : ∀ t', stepWallY k (moverBot (pos + vel) (vel.mulS k.FRICTION) t' hl arc idx) =
      moverBot (pos + vel) (vel.mulS k.FRICTION) t' hl arc idx := by
    intro t'
    exact stepWallY_skip k _ (not_lt.mpr hy1) (not_lt.mpr hy2)
  have h8 : ∀ t', stepStrategy k inv
      (moverBot (pos + vel) (vel.mulS k.FRICTION) t' hl arc idx, sh) =
      (moverBot (pos + vel) (vel.mulS k.FRICTION) t' hl arc idx, sh) := by
    intro t'
    rw [stepStrategy_noop_active k inv _ sh hinv rfl]
    have harc : clampArc k
        (moverBot (pos + vel) (vel.mulS k.FRICTION) t' hl arc idx).target_arc = arc := by
      show clampArc k arc = arc
      rw [clampArc, min_eq_left harc2, max_eq_left harc1]
    rw [harc]
    simp [moverBot, calmBot]
  rw [Robot.update, h1, h2, h3, h4, h5, h6, h7, h8]

/-- Robot of the C2 wall scenario: claim-conformant (temperature exactly
`MAX_TEMPERATURE`), coasting into the left wall. -/
def c2W : Robot := moverBot ⟨15, 50⟩ ⟨-10, 0⟩ 150 100 (1 / 2) 0

/-- That robot at the end of its tick: the wall heat was added after the
thermal clamp, leaving it at `150.89 > MAX_TEMPERATURE`. -/
def c2Wend : Robot := moverBot ⟨10, 50⟩ ⟨9, 0⟩ (15089 / 100) (486 / 5) (1 / 2) 0

lemma c2_updW : ∀ inv : Robot → List Shot → Robot × List Shot,
    (∀ b' sh', inv b' sh' = (b', sh')) →
    Robot.update Kc inv 0 c2W [] = (c2Wend, []) := by
  intro inv hinv
  have hlen : ∀ t hl : ℝ,
      ((moverBot ⟨5, 50⟩ ⟨-9, 0⟩ t hl (1 / 2) 0 : Robot).velocity).length = 9 := by
    intro t hl
    rw [show ((moverBot ⟨5, 50⟩ ⟨-9, 0⟩ t hl (1 / 2) 0 : Robot).velocity) =
      Vec.mk (-9) 0 from rfl, Vec.length_x]
    norm_num
  have h1 : stepIntegrate Kc c2W = moverBot ⟨5, 50⟩ ⟨-9, 0⟩ 150 100 (1 / 2) 0 := by
    norm_num [stepIntegrate, c2W, moverBot, calmBot, Kc, Vec.add_def, Vec.mulS]
  have h2 : stepDrain Kc (moverBot ⟨5, 50⟩ ⟨-9, 0⟩ 150 100 (1 / 2) 0) =
      moverBot ⟨5, 50⟩ ⟨-9, 0⟩ 150 100 (1 / 2) 0 := by
    rw [stepDrain_eq]
    simp [moverBot, calmBot, minabs_zero, Vec.mulS_zero, Vec.add_zero']
  have h3 : stepArc (moverBot ⟨5, 50⟩ ⟨-9, 0⟩ 150 100 (1 / 2) 0) =
      moverBot ⟨5, 50⟩ ⟨-9, 0⟩ 150 100 (1 / 2) 0 := by
    rw [stepArc_eq]
    simp [moverBot, calmBot]
  have h4 : stepDeath Kc 0 (moverBot ⟨5, 50⟩ ⟨-9, 0⟩ 150 100 (1 / 2) 0) =
      moverBot ⟨5, 50⟩ ⟨-9, 0⟩ 150 100 (1 / 2) 0 :=
    stepDeath_skip Kc 0 _ (fun hc => absurd hc.1 (by norm_num [moverBot, calmBot]))
  have h5 : stepThermal Kc (moverBot ⟨5, 50⟩ ⟨-9, 0⟩ 150 100 (1 / 2) 0) =
      moverBot ⟨5, 50⟩ ⟨-9, 0⟩ (14909 / 100) 99 (1 / 2) 0 := by
    rw [stepThermal_eq, hlen]
    norm_num [Kc, moverBot, calmBot, min_def]
  have h6 : stepWallX Kc (moverBot ⟨5, 50⟩ ⟨-9, 0⟩ (14909 / 100) 99 (1 / 2) 0) =
      c2Wend := by
    simp only [stepWallX]
    rw [if_pos (show ((moverBot ⟨5, 50⟩ ⟨-9, 0⟩ (14909 / 100) 99 (1 / 2) 0 :
      Robot).position).x < Kc.RADIUS by norm_num [moverBot, calmBot, Kc])]
    rw [hlen]
    norm_num [Kc, moverBot, calmBot, c2Wend]
  have h7 : stepWallY Kc c2Wend = c2Wend :=
    stepWallY_skip Kc _ (by norm_num [c2Wend, moverBot, calmBot, Kc])
      (by norm_num [c2Wend, moverBot, calmBot, Kc])
  have h8 : stepStrategy Kc inv (c2Wend, []) = (c2Wend, []) := by
    rw [stepStrategy_noop_active Kc inv _ [] hinv rfl]
    have harc : clampArc Kc (c2Wend : Robot).target_arc = 1 / 2 := by
      show clampArc Kc (1 / 2) = 1 / 2
      rw [clampArc, min_eq_left c2_tau_half, max_eq_left (by norm_num [Kc])]
    rw [harc]
    simp [c2Wend, moverBot, calmBot]
  rw [Robot.update, h1, h2, h3, h4, h5, h6, h7, h8]

/-- The full tick of the C2 wall scenario. -/
lemma c2_wall_tick :
    arenaUpdate Kc noopStrat (fun _ => 0) (ArenaSt.mk [c2W] [] 0) =
      ArenaSt.mk [c2Wend] [] 1 := by
  have hbu : slotBotUpdate Kc noopStrat 0 ([c2W], []) 0 = ([c2Wend], []) := by
    simp only [slotBotUpdate]
    rw [show ([c2W] : List Robot).getD 0 default = c2W from rfl]
    rw [c2_updW (fun b' sh' =>
      runCmds Kc 0 b' sh' (noopStrat (([c2W] : List Robot).set 0 b') sh' 0))
      (fun _ _ => rfl)]
    rfl
  have hcol : slotCollide Kc 0 [c2Wend] = [c2Wend] := by
    simp only [slotCollide]
    rw [show ([c2Wend] : List Robot).length = 1 from rfl,
      show List.range 1 = [0] from rfl]
    simp only [List.foldl]
    rw [pairResolve_self]
  have hslot : slotUpdate Kc noopStrat 0 ([c2W], []) 0 = ([c2Wend], []) := by
    simp only [slotUpdate]
    rw [hbu]
    show shotLoop Kc 0 (slotCollide Kc 0 [c2Wend]) [] = _
    rw [hcol, shotLoop_nil]
  simp only [arenaUpdate, botsPhase]
  rw [show shotsPhase Kc ([] : List Shot) = [] from rfl,
    show ([c2W] : List Robot).length = 1 from rfl, show List.range 1 = [0] from rfl]
  simp only [List.foldl]
  rw [hslot]

/-- C2 (counterexample).  Two robots whose states satisfy every claimed
invariant before their tick end it outside the claimed bounds.  The first
(health `1`, temperature `50.5`) is struck by a projectile: at the tick
boundary its health is `-9 < 0` (the shot damage is applied with no clamp)
and its temperature is `49.6 < NORMAL_TEMPERATURE = 50` (cooling subtracted
the full `COOLING_RATE` from `50.5`).  The second (temperature exactly
`MAX_TEMPERATURE = 150`) coasts into a wall: the wall heat is added after
the thermal clamp, so it ends the tick at `150.89 > MAX_TEMPERATURE`.
Together these refute the claimed lower health bound, the claimed cooling
floor, and the claimed temperature ceiling. -/
theorem c2_counterexample :
    (0 ≤ c2V.health ∧ c2V.health ≤ Kc.MAX_HEALTH ∧
        Kc.NORMAL_TEMPERATURE ≤ c2V.temperature ∧
          c2V.temperature ≤ Kc.MAX_TEMPERATURE) ∧
      ((arenaUpdate Kc noopStrat (fun _ => 0)
            (ArenaSt.mk [c2S, c2V] [c2shot] 0)).bots.getD 1 default).health < 0 ∧
        ((arenaUpdate Kc noopStrat (fun _ => 0)
            (ArenaSt.mk [c2S, c2V] [c2shot] 0)).bots.getD 1 default).temperature <
          Kc.NORMAL_TEMPERATURE ∧
      (0 ≤ c2W.health ∧ c2W.health ≤ Kc.MAX_HEALTH ∧
        Kc.NORMAL_TEMPERATURE ≤ c2W.temperature ∧
          c2W.temperature ≤ Kc.MAX_TEMPERATURE) ∧
      Kc.MAX_TEMPERATURE <
        ((arenaUpdate Kc noopStrat (fun _ => 0)
            (ArenaSt.mk [c2W] [] 0)).bots.getD 0 default).temperature := by
  refine ⟨⟨by norm_num [c2V, calmBot], by norm_num [c2V, calmBot, Kc],
    by norm_num [c2V, calmBot, Kc], by norm_num [c2V, calmBot, Kc]⟩, ?_, ?_,
    ⟨by norm_num [c2W, moverBot, calmBot], by norm_num [c2W, moverBot, calmBot, Kc],
      by norm_num [c2W, moverBot, calmBot, Kc], by norm_num [c2W, moverBot, calmBot, Kc]⟩,
    ?_⟩
  · rw [c2_tick]
    show (c2Vend : Robot).health < 0
    norm_num [c2Vend, calmBot]
  · rw [c2_tick]
    show (c2Vend : Robot).temperature < Kc.NORMAL_TEMPERATURE
    norm_num [c2Vend, calmBot, Kc]
  · rw [c2_wall_tick]
    show Kc.MAX_TEMPERATURE < (c2Wend : Robot).temperature
    norm_num [c2Wend, moverBot, calmBot, Kc]

/-- Stationary robot of the C4 scenario. -/
def c4A : Robot := calmBot ⟨50, 50⟩ 50 100 (1 / 2) 0

/-- Fast robot of the C4 scenario: it starts overlapping the stationary
robot and coasts away from it during its own update. -/
def c4B : Robot := moverBot ⟨65, 50⟩ ⟨100, 75⟩ 50 100 (1 / 2) 1

/-- The stationary robot after the body collision of the interleaved tick. -/
def c4A1 : Robot := moverBot ⟨95 / 2, 50⟩ ⟨100, 0⟩ 75 75 (1 / 2) 0

/-- The fast robot after that body collision. -/
def c4B1 : Robot := moverBot ⟨135 / 2, 50⟩ ⟨0, 75⟩ 75 75 (1 / 2) 1

/-- The fast robot at the end of the interleaved tick. -/
def c4B2 : Robot := moverBot ⟨135 / 2, 125⟩ ⟨0, 135 / 2⟩ (2987 / 40) 75 (1 / 2) 1

/-- The fast robot at the end of the phased tick: no collision occurs. -/
def c4Bp : Robot := moverBot ⟨165, 125⟩ ⟨90, 135 / 2⟩ (409 / 8) 100 (1 / 2) 1

/-- The body collision of bot `0`'s interleaved slot, evaluated. -/
lemma c4_pair : pairResolve Kc 0 1 [c4A, c4B] = [c4A1, c4B1] := by
  have hb : ([c4A, c4B] : List Robot).getD 0 default = c4A := rfl
  have hc : ([c4A, c4B] : List Robot).getD 1 default = c4B := rfl
  have hcv : (c4A.position : Vec) - c4B.position = Vec.mk (-15) 0 := by
    show (Vec.mk 50 50 : Vec) - Vec.mk 65 50 = Vec.mk (-15) 0
    rw [Vec.sub_def]
    norm_num
  have hlen : (Vec.mk (-15 : ℝ) 0).length = 15 := by
    rw [Vec.length_x]
    norm_num
  have hunit : (Vec.mk (-15 : ℝ) 0).unit = Vec.mk (-1) 0 := by
    rw [Vec.unit, if_neg (by rw [hlen]; norm_num), hlen]
    norm_num [Vec.divS]
  have htB : (c4A.velocity : Vec).projection (Vec.mk (-15) 0) = Vec.mk 0 0 := by
    rw [Vec.projection, hunit, hlen]
    norm_num [c4A, calmBot, Vec.dot, Vec.mulS]
  have htC : (c4B.velocity : Vec).projection (Vec.mk (-15) 0) = Vec.mk 100 0 := by
    rw [Vec.projection, hunit, hlen]
    norm_num [c4B, moverBot, calmBot, Vec.dot, Vec.mulS]
  have hrr : (Vec.mk (-15 : ℝ) 0).unit.mulS (Kc.RADIUS * 2) - Vec.mk (-15) 0 =
      Vec.mk (-5) 0 := by
    rw [hunit]
    norm_num [Kc, Vec.mulS, Vec.sub_def]
  have hp1 : (c4A.position : Vec) + (Vec.mk (-5 : ℝ) 0).divS 2 = Vec.mk (95 / 2) 50 := by
    show (Vec.mk 50 50 : Vec) + (Vec.mk (-5 : ℝ) 0).divS 2 = Vec.mk (95 / 2) 50
    norm_num [Vec.divS, Vec.add_def]
  have hp2 : (c4B.position : Vec) - (Vec.mk (-5 : ℝ) 0).divS 2 = Vec.mk (135 / 2) 50 := by
    show (Vec.mk 65 50 : Vec) - (Vec.mk (-5 : ℝ) 0).divS 2 = Vec.mk (135 / 2) 50
    norm_num [Vec.divS, Vec.sub_def]
  have hv1 : (c4A.velocity : Vec) + (Vec.mk (100 : ℝ) 0 - Vec.mk 0 0) = Vec.mk 100 0 := by
    show (Vec.mk 0 0 : Vec) + (Vec.mk (100 : ℝ) 0 - Vec.mk 0 0) = Vec.mk 100 0
    norm_num [Vec.sub_def, Vec.add_def]
  have hv2 : (c4B.velocity : Vec) + (Vec.mk (0 : ℝ) 0 - Vec.mk 100 0) = Vec.mk 0 75 := by
    show (Vec.mk 100 75 : Vec) + (Vec.mk (0 : ℝ) 0 - Vec.mk 100 0) = Vec.mk 0 75
    norm_num [Vec.sub_def, Vec.add_def]
  have ha1 : (c4A.angular_velocity : ℝ) - c4B.angular_velocity * 2 = 0 := by
    show (0 : ℝ) - 0 * 2 = 0
    norm_num
  have ha2 : (c4B.angular_velocity : ℝ) - 0 * 2 = 0 := by
    show (0 : ℝ) - 0 * 2 = 0
    norm_num
  have hd2 : (Vec.mk (100 : ℝ) 0 - Vec.mk 0 75).length = 125 := by
    rw [Vec.sub_def, show Vec.mk (100 - 0 : ℝ) (0 - 75) = Vec.mk 100 (-75) by norm_num]
    exact Vec.length_eval 100 (-75) 125 (by norm_num) (by norm_num)
  have hh1 : (c4A.health : ℝ) - Kc.bot_collision_damage 125 = 75 := by
    show (100 : ℝ) - Kc.bot_collision_damage 125 = 75
    norm_num [Kc]
  have hh2 : (c4B.health : ℝ) - Kc.bot_collision_damage 125 = 75 := by
    show (100 : ℝ) - Kc.bot_collision_damage 125 = 75
    norm_num [Kc]
  have ht1 : (c4A.temperature : ℝ) + Kc.bot_collision_heat 125 = 75 := by
    show (50 : ℝ) + Kc.bot_collision_heat 125 = 75
    norm_num [Kc]
  have ht2 : (c4B.temperature : ℝ) + Kc.bot_collision_heat 125 = 75 := by
    show (50 : ℝ) + Kc.bot_collision_heat 125 = 75
    norm_num [Kc]
  simp only [pairResolve]
  rw [if_neg (show ¬(0 : ℕ) = 1 by norm_num)]
  rw [hb, hc, hcv, hlen]
  rw [if_pos (show (15 : ℝ) ≠ 0 ∧ (15 : ℝ) ≤ Kc.RADIUS * 2 from
    ⟨by norm_num, by norm_num [Kc]⟩)]
  rw [htB, htC, hrr]
  rw [if_pos (show (c4A.active : Bool) = true from rfl)]
  rw [if_pos (show (c4B.active : Bool) = true from rfl)]
  simp only [hp1, hp2, hv1, hv2, ha1, ha2, hd2, hh1, hh2, ht1, ht2]
  rfl

lemma c4_updA : ∀ inv : Robot → List Shot → Robot × List Shot,
    (∀ b' sh', inv b' sh' = (b', sh')) →
    Robot.update Kc inv 0 c4A [] = (c4A, []) := by
  intro inv hinv
  rw [show (c4A : Robot) = calmBot ⟨50, 50⟩ 50 100 (1 / 2) 0 from rfl]
  rw [update_calm Kc inv 0 ⟨50, 50⟩ 50 100 (1 / 2) 0 [] hinv (by norm_num)
    (by norm_num [Kc]) (by norm_num [Kc]) (by norm_num [Kc]) (by norm_num [Kc])
    (by norm_num [Kc]) (by norm_num [Kc]) c2_tau_half]
  norm_num [Kc, min_def]

lemma c4_updB : ∀ inv : Robot → List Shot → Robot × List Shot,
    (∀ b' sh', inv b' sh' = (b', sh')) →
    Robot.update Kc inv 0 c4B [] = (c4Bp, []) := by
  intro inv hinv
  rw [show (c4B : Robot) = moverBot ⟨65, 50⟩ ⟨100, 75⟩ 50 100 (1 / 2) 1 from rfl]
  rw [update_mover Kc inv 0 ⟨65, 50⟩ ⟨100, 75⟩ 50 100 (1 / 2) 1 [] hinv (by norm_num)
    (by norm_num [Kc]) (by norm_num [Kc]) (by norm_num [Kc]) (by norm_num [Kc])
    (by norm_num [Kc]) (by norm_num [Kc]) c2_tau_half]
  rw [show (Vec.mk (100 : ℝ) 75).mulS Kc.FRICTION = Vec.mk 90 (135 / 2) by
    norm_num [Kc, Vec.mulS]]
  rw [Vec.length_eval 90 (135 / 2) (225 / 2) (by norm_num) (by norm_num)]
  rw [show (Vec.mk (65 : ℝ) 50) + Vec.mk 100 75 = Vec.mk 165 125 by
    norm_num [Vec.add_def]]
  rw [show (c4Bp : Robot) = moverBot ⟨165, 125⟩ ⟨90, 135 / 2⟩ (409 / 8) 100 (1 / 2) 1
    from rfl]
  norm_num [Kc, min_def]

lemma c4_updB1 : ∀ inv : Robot → List Shot → Robot × List Shot,
    (∀ b' sh', inv b' sh' = (b', sh')) →
    Robot.update Kc inv 0 c4B1 [] = (c4B2, []) := by
  intro inv hinv
  rw [show (c4B1 : Robot) = moverBot ⟨135 / 2, 50⟩ ⟨0, 75⟩ 75 75 (1 / 2) 1 from rfl]
  rw [update_mover Kc inv 0 ⟨135 / 2, 50⟩ ⟨0, 75⟩ 75 75 (1 / 2) 1 [] hinv (by norm_num)
    (by norm_num [Kc]) (by norm_num [Kc]) (by norm_num [Kc]) (by norm_num [Kc])
    (by norm_num [Kc]) (by norm_num [Kc]) c2_tau_half]
  rw [show (Vec.mk (0 : ℝ) 75).mulS Kc.FRICTION = Vec.mk 0 (135 / 2) by
    norm_num [Kc, Vec.mulS]]
  rw [Vec.length_eval 0 (135 / 2) (135 / 2) (by norm_num) (by norm_num)]
  rw [show (Vec.mk (135 / 2 : ℝ) 50) + Vec.mk 0 75 = Vec.mk (135 / 2) 125 by
    norm_num [Vec.add_def]]
  rw [show (c4B2 : Robot) = moverBot ⟨135 / 2, 125⟩ ⟨0, 135 / 2⟩ (2987 / 40) 75 (1 / 2) 1
    from rfl]
  norm_num [Kc, min_def]

lemma c4_slot0 : slotUpdate Kc noopStrat 0 ([c4A, c4B], []) 0 = ([c4A1, c4B1], []) := by
  have hbu : slotBotUpdate Kc noopStrat 0 ([c4A, c4B], []) 0 = ([c4A, c4B], []) := by
    simp only [slotBotUpdate]
    rw [show ([c4A, c4B] : List Robot).getD 0 default = c4A from rfl]
    rw [c4_updA (fun b' sh' =>
      runCmds Kc 0 b' sh' (noopStrat (([c4A, c4B] : List Robot).set 0 b') sh' 0))
      (fun _ _ => rfl)]
    rfl
  have hcol : slotCollide Kc 0 [c4A, c4B] = [c4A1, c4B1] := by
    simp only [slotCollide]
    rw [show ([c4A, c4B] : List Robot).length = 2 from rfl, range_two]
    simp only [List.foldl]
    rw [pairResolve_self, c4_pair]
  simp only [slotUpdate]
  rw [hbu]
  show shotLoop Kc 0 (slotCollide Kc 0 [c4A, c4B]) [] = _
  rw [hcol, shotLoop_nil]

lemma c4_slot1 : slotUpdate Kc noopStrat 0 ([c4A1, c4B1], []) 1 = ([c4A1, c4B2], []) := by
  have hbu : slotBotUpdate Kc noopStrat 0 ([c4A1, c4B1], []) 1 = ([c4A1, c4B2], []) := by
    simp only [slotBotUpdate]
    rw [show ([c4A1, c4B1] : List Robot).getD 1 default = c4B1 from rfl]
    rw [c4_updB1 (fun b' sh' =>
      runCmds Kc 1 b' sh' (noopStrat (([c4A1, c4B1] : List Robot).set 1 b') sh' 1))
      (fun _ _ => rfl)]
    rfl
  have hfar : ¬(Vec.mk (20 : ℝ) 75).length ≤ Kc.RADIUS * 2 := by
    intro hle
    have h := Vec.abs_y_le_length (Vec.mk (20 : ℝ) 75)
    rw [show |(Vec.mk (20 : ℝ) 75).y| = 75 by norm_num] at h
    norm_num [Kc] at hle
    linarith
  have hcol : slotCollide Kc 1 [c4A1, c4B2] = [c4A1, c4B2] := by
    simp only [slotCollide]
    rw [show ([c4A1, c4B2] : List Robot).length = 2 from rfl, range_two]
    simp only [List.foldl]
    rw [pairResolve_far Kc 1 0 [c4A1, c4B2] (by norm_num)
      (by rw [show (([c4A1, c4B2] : List Robot).getD 1 default).position -
          (([c4A1, c4B2] : List Robot).getD 0 default).position =
          Vec.mk (135 / 2 - 95 / 2) (125 - 50) from rfl,
          show Vec.mk (135 / 2 - 95 / 2 : ℝ) (125 - 50) = Vec.mk 20 75 by norm_num]
          exact hfar), pairResolve_self]
  simp only [slotUpdate]
  rw [hbu]
  show shotLoop Kc 1 (slotCollide Kc 1 [c4A1, c4B2]) [] = _
  rw [hcol, shotLoop_nil]

/-- The interleaved tick of the C4 scenario: the stationary robot's slot
resolves a body collision against the fast robot's stale position, so the
stationary robot ends displaced at `x = 47.5`. -/
lemma c4_tick_inter :
    arenaUpdate Kc noopStrat (fun _ => 0) (ArenaSt.mk [c4A, c4B] [] 0) =
      ArenaSt.mk [c4A1, c4B2] [] 1 := by
  simp only [arenaUpdate, botsPhase]
  rw [show shotsPhase Kc ([] : List Shot) = [] from rfl,
    show ([c4A, c4B] : List Robot).length = 2 from rfl, range_two]
  simp only [List.foldl]
  rw [c4_slot0, c4_slot1]

/-- The phased tick of the C4 scenario: both robots complete their updates
first, the fast robot coasts out of range, and no collision occurs. -/
lemma c4_tick_phased :
    phasedUpdate Kc noopStrat (fun _ => 0) (ArenaSt.mk [c4A, c4B] [] 0) =
      ArenaSt.mk [c4A, c4Bp] [] 1 := by
  have hbu0 : slotBotUpdate Kc noopStrat 0 ([c4A, c4B], []) 0 = ([c4A, c4B], []) := by
    simp only [slotBotUpdate]
    rw [show ([c4A, c4B] : List Robot).getD 0 default = c4A from rfl]
    rw [c4_updA (fun b' sh' =>
      runCmds Kc 0 b' sh' (noopStrat (([c4A, c4B] : List Robot).set 0 b') sh' 0))
      (fun _ _ => rfl)]
    rfl
  have hbu1 : slotBotUpdate Kc noopStrat 0 ([c4A, c4B], []) 1 = ([c4A, c4Bp], []) := by
    simp only [slotBotUpdate]
    rw [show ([c4A, c4B] : List Robot).getD 1 default = c4B from rfl]
    rw [c4_updB (fun b' sh' =>
      runCmds Kc 1 b' sh' (noopStrat (([c4A, c4B] : List Robot).set 1 b') sh' 1))
      (fun _ _ => rfl)]
    rfl
  have hfar01 : ¬(Vec.mk (-115 : ℝ) (-75)).length ≤ Kc.RADIUS * 2 := by
    intro hle
    have h := Vec.abs_x_le_length (Vec.mk (-115 : ℝ) (-75))
    rw [show |(Vec.mk (-115 : ℝ) (-75)).x| = 115 by
      show |(-115 : ℝ)| = 115
      norm_num] at h
    norm_num [Kc] at hle
    linarith
  have hfar10 : ¬(Vec.mk (115 : ℝ) 75).length ≤ Kc.RADIUS * 2 := by
    intro hle
    have h := Vec.abs_x_le_length (Vec.mk (115 : ℝ) 75)
    rw [show |(Vec.mk (115 : ℝ) 75).x| = 115 by
      show |(115 : ℝ)| = 115
      norm_num] at h
    norm_num [Kc] at hle
    linarith
  have hcol0 : slotCollide Kc 0 [c4A, c4Bp] = [c4A, c4Bp] := by
    simp only [slotCollide]
    rw [show ([c4A, c4Bp] : List Robot).length = 2 from rfl, range_two]
    simp only [List.foldl]
    rw [pairResolve_self, pairResolve_far Kc 0 1 [c4A, c4Bp] (by norm_num)
      (by rw [show (([c4A, c4Bp] : List Robot).getD 0 default).position -
          (([c4A, c4Bp] : List Robot).getD 1 default).position =
          Vec.mk (50 - 165) (50 - 125) from rfl,
          show Vec.mk (50 - 165 : ℝ) (50 - 125) = Vec.mk (-115) (-75) by norm_num]
          exact hfar01)]
  have hcol1 : slotCollide Kc 1 [c4A, c4Bp] = [c4A, c4Bp] := by
    simp only [slotCollide]
    rw [show ([c4A, c4Bp] : List Robot).length = 2 from rfl, range_two]
    simp only [List.foldl]
    rw [pairResolve_far Kc 1 0 [c4A, c4Bp] (by norm_num)
      (by rw [show (([c4A, c4Bp] : List Robot).getD 1 default).position -
          (([c4A, c4Bp] : List Robot).getD 0 default).position =
          Vec.mk (165 - 50) (125 - 50) from rfl,
          show Vec.mk (165 - 50 : ℝ) (125 - 50) = Vec.mk 115 75 by norm_num]
          exact hfar10), pairResolve_self]
  simp only [phasedUpdate]
  rw [show shotsPhase Kc ([] : List Shot) = [] from rfl,
    show ([c4A, c4B] : List Robot).length = 2 from rfl, range_two]
  simp only [List.foldl]
  rw [hbu0, hbu1]
  rw [show (([c4A, c4Bp], ([] : List Shot))).1 = [c4A, c4Bp] from rfl,
    show (([c4A, c4Bp], ([] : List Shot))).2 = ([] : List Shot) from rfl]
  rw [hcol0, shotLoop_nil]
  rw [show (([c4A, c4Bp], ([] : List Shot))).1 = [c4A, c4Bp] from rfl,
    show (([c4A, c4Bp], ([] : List Shot))).2 = ([] : List Shot) from rfl]
  rw [hcol1, shotLoop_nil]

/-- C4 (counterexample).  On a two-robot arena, `Arena.update` is NOT the
phased schedule the claim describes: in the interleaved tick the stationary
robot's slot resolves a body collision against the fast robot's not yet
updated position and displaces the stationary robot to `x = 47.5`, while
under the claimed run-all-updates-then-resolve-all-collisions schedule the
fast robot first coasts out of collision range and the stationary robot
stays at `x = 50`. -/
theorem c4_counterexample :
    arenaUpdate Kc noopStrat (fun _ => 0) (ArenaSt.mk [c4A, c4B] [] 0) ≠
        phasedUpdate Kc noopStrat (fun _ => 0) (ArenaSt.mk [c4A, c4B] [] 0) ∧
      (((arenaUpdate Kc noopStrat (fun _ => 0)
          (ArenaSt.mk [c4A, c4B] [] 0)).bots.getD 0 default).position).x = 95 / 2 ∧
      (((phasedUpdate Kc noopStrat (fun _ => 0)
          (ArenaSt.mk [c4A, c4B] [] 0)).bots.getD 0 default).position).x = 50 := by
  refine ⟨?_, by rw [c4_tick_inter]; rfl, by rw [c4_tick_phased]; rfl⟩
  intro h
  rw [c4_tick_inter, c4_tick_phased] at h
  have hb := congrArg (fun st : ArenaSt => ((st.bots.getD 0 default).position).x) h
  exact absurd (show (95 / 2 : ℝ) = 50 from hb) (by norm_num)

/-- C4 (amended).  The interleaved schedule of `Arena.update` (each robot's
body-collision and projectile-contact resolution runs inside its own slot,
interleaved with the later robots' updates) coincides with the claimed
phased schedule only when the arena holds at most one robot. -/
theorem c4_schedule_amended (k : Consts) (strat : Strat) (rng : ℕ → ℝ) (st : ArenaSt)
    (h : st.bots.length ≤ 1) :
    arenaUpdate k strat rng st = phasedUpdate k strat rng st := by
  obtain ⟨bots, shots, ticks⟩ := st
  rcases bots with _ | ⟨a, bs⟩
  · rfl
  rcases bs with _ | ⟨b, t⟩
  · rfl
  · simp only [List.length_cons] at h
    omega

/-- Witness for `c4_schedule_amended` on a one-robot arena under `Kc`. -/
theorem c4_schedule_amended_witness :
    (ArenaSt.mk [c4A] [] 0).bots.length ≤ 1 ∧
      arenaUpdate Kc noopStrat (fun _ => 0) (ArenaSt.mk [c4A] [] 0) =
        phasedUpdate Kc noopStrat (fun _ => 0) (ArenaSt.mk [c4A] [] 0) :=
  ⟨by norm_num, c4_schedule_amended Kc noopStrat (fun _ => 0) _ (by norm_num)⟩

lemma stepIntegrate_ha (k : Consts) (b : Robot) :
    (stepIntegrate k b).active = b.active ∧ (stepIntegrate k b).health = b.health := by
  simp only [stepIntegrate]
  split_ifs <;> exact ⟨rfl, rfl⟩

lemma stepDrain_ha (k : Consts) (b : Robot) :
    (stepDrain k b).active = b.active ∧ (stepDrain k b).health = b.health := by
  rw [stepDrain_eq]
  exact ⟨rfl, rfl⟩

lemma stepDeath_dead (k : Consts) (r : ℝ) (b : Robot)
    (h : b.health ≤ 0 ∧ b.active = true) : (stepDeath k r b).active = false := by
  rw [stepDeath, if_pos h]

lemma stepThermal_active (k : Consts) (b : Robot) :
    (stepThermal k b).active = b.active := by
  rw [stepThermal_eq]

lemma stepWallX_active (k : Consts) (b : Robot) :
    (stepWallX k b).active = b.active := by
  simp only [stepWallX]
  split_ifs <;> rfl

lemma stepWallY_active (k : Consts) (b : Robot) :
    (stepWallY k b).active = b.active := by
  simp only [stepWallY]
  split_ifs <;> rfl

/-- An active robot whose health is already non-positive is deactivated by
the death check at the start of its own `Bot.update`. -/
lemma update_dead_flips (k : Consts) (inv : Robot → List Shot → Robot × List Shot)
    (r : ℝ) (b : Robot) (sh : List Shot)
    (hact : b.active = true) (hh : b.health ≤ 0) :
    ((Robot.update k inv r b sh).1).active = false := by
  rw [Robot.update]
  have h4 : (stepDeath k r (stepArc (stepDrain k (stepIntegrate k b)))).active = false := by
    apply stepDeath_dead
    constructor
    · rw [show (stepArc (stepDrain k (stepIntegrate k b))).health =
        (stepDrain k (stepIntegrate k b)).health from rfl, (stepDrain_ha k _).2,
        (stepIntegrate_ha k b).2]
      exact hh
    · rw [show (stepArc (stepDrain k (stepIntegrate k b))).active =
        (stepDrain k (stepIntegrate k b)).active from rfl, (stepDrain_ha k _).1,
        (stepIntegrate_ha k b).1]
      exact hact
  have h7 : (stepWallY k (stepWallX k (stepThermal k (stepDeath k r (stepArc (stepDrain k
      (stepIntegrate k b))))))).active = false := by
    rw [stepWallY_active, stepWallX_active, stepThermal_active, h4]
  rw [stepStrategy_inactive k inv _ sh h7]
  exact h7

/-- The lethal branch of `processHit`: the kill credit is recorded, the
victim's health drops by the shot damage, but its `active` flag is left
untouched. -/
lemma processHit_lethal (k : Consts) (i : ℕ) (bots : List Robot) (s : Shot)
    (hi : i < bots.length) (ho : s.owner < bots.length) (hoi : s.owner ≠ i)
    (hb : (bots.getD i default).active = true)
    (hl : (bots.getD i default).health - k.SHOT_DAMAGE ≤ 0) :
    ((processHit k i bots s).getD i default).active = true ∧
      ((processHit k i bots s).getD i default).health =
        (bots.getD i default).health - k.SHOT_DAMAGE ∧
      ((processHit k i bots s).getD i default).killed_by =
        some ((bots.getD s.owner default).index) ∧
      ((processHit k i bots s).getD s.owner default).killed =
        (bots.getD s.owner default).killed ++ [(bots.getD i default).index] := by
  simp only [processHit]
  split_ifs with h1
  · exact absurd (show (bots.getD i default).active = false from h1)
      (by rw [hb]; simp)
  · unfold updateAt
    refine ⟨?_, ?_, ?_, ?_⟩
    · rw [getD_set_ne _ _ _ _ hoi, getD_set_self _ _ _ hi]
      exact hb
    · rw [getD_set_ne _ _ _ _ hoi, getD_set_self _ _ _ hi]
    · rw [getD_set_ne _ _ _ _ hoi, getD_set_self _ _ _ hi]
    · rw [getD_set_self _ _ _ (show s.owner < (bots.set i _).length by
        rw [List.length_set]; exact ho)]
      rw [getD_set_ne _ _ _ _ (Ne.symm hoi)]

/-- C6 (amended).  A lethal projectile hit on an active robot records the
kill credit at once — the victim's `killed_by` is set to the shooter's index
and the shooter's kill list grows by exactly one entry, the victim's index —
but the victim's `active` flag stays `true` for the rest of that tick; the
flag only flips at the death check at the start of the victim's own update
in the next tick. -/
theorem c6_kill_credit (k : Consts) (i : ℕ) (bots : List Robot) (s : Shot)
    (hi : i < bots.length) (ho : s.owner < bots.length) (hoi : s.owner ≠ i)
    (hvic : (bots.getD i default).active = true)
    (hdmg : (bots.getD i default).health - k.SHOT_DAMAGE ≤ 0)
    (inv : Robot → List Shot → Robot × List Shot) (r : ℝ) (sh : List Shot) :
    ((processHit k i bots s).getD i default).active = true ∧
      ((processHit k i bots s).getD i default).killed_by =
        some ((bots.getD s.owner default).index) ∧
      ((processHit k i bots s).getD s.owner default).killed =
        (bots.getD s.owner default).killed ++ [(bots.getD i default).index] ∧
      ((Robot.update k inv r ((processHit k i bots s).getD i default) sh).1).active =
        false := by
  obtain ⟨ha, hh, hkb, hkl⟩ := processHit_lethal k i bots s hi ho hoi hvic hdmg
  exact ⟨ha, hkb, hkl, update_dead_flips k inv r _ sh ha (by rw [hh]; exact hdmg)⟩

/-- Witness for `c6_kill_credit` on the concrete lethal-hit scenario. -/
theorem c6_kill_credit_witness :
    ((1 : ℕ) < ([c2S, c2V] : List Robot).length ∧
        (c2shotM.owner : ℕ) < ([c2S, c2V] : List Robot).length ∧
        (c2shotM.owner : ℕ) ≠ 1 ∧
        (([c2S, c2V] : List Robot).getD 1 default).active = true ∧
        (([c2S, c2V] : List Robot).getD 1 default).health - Kc.SHOT_DAMAGE ≤ 0) ∧
      (((processHit Kc 1 [c2S, c2V] c2shotM).getD 1 default).active = true ∧
        ((processHit Kc 1 [c2S, c2V] c2shotM).getD 1 default).killed_by =
          some ((([c2S, c2V] : List Robot).getD c2shotM.owner default).index) ∧
        ((processHit Kc 1 [c2S, c2V] c2shotM).getD c2shotM.owner default).killed =
          (([c2S, c2V] : List Robot).getD c2shotM.owner default).killed ++
            [(([c2S, c2V] : List Robot).getD 1 default).index] ∧
        ((Robot.update Kc (fun b sh => (b, sh)) 0
            ((processHit Kc 1 [c2S, c2V] c2shotM).getD 1 default) []).1).active =
          false) :=
  ⟨⟨by norm_num, show (0 : ℕ) < 2 by norm_num, show (0 : ℕ) ≠ 1 by norm_num, rfl,
      show (1 : ℝ) - Kc.SHOT_DAMAGE ≤ 0 by norm_num [Kc]⟩,
    c6_kill_credit Kc 1 [c2S, c2V] c2shotM (by norm_num) (show (0 : ℕ) < 2 by norm_num)
      (show (0 : ℕ) ≠ 1 by norm_num) rfl
      (show (1 : ℝ) - Kc.SHOT_DAMAGE ≤ 0 by norm_num [Kc]) (fun b sh => (b, sh)) 0 []⟩

/-- C6 (counterexample).  In the concrete lethal-hit tick the kill credit is
recorded as the claim says, but the victim ends the very tick in which it
was struck with health `-9 ≤ 0` and `active` still `true`: the claimed
same-tick `active = true → false` transition does not happen. -/
theorem c6_counterexample :
    c2V.active = true ∧ c2V.health = 1 ∧ (1 : ℝ) ≤ Kc.SHOT_DAMAGE ∧
      (((arenaUpdate Kc noopStrat (fun _ => 0)
          (ArenaSt.mk [c2S, c2V] [c2shot] 0)).bots.getD 1 default).health ≤ 0 ∧
        ((arenaUpdate Kc noopStrat (fun _ => 0)
          (ArenaSt.mk [c2S, c2V] [c2shot] 0)).bots.getD 1 default).active = true) ∧
      ((arenaUpdate Kc noopStrat (fun _ => 0)
          (ArenaSt.mk [c2S, c2V] [c2shot] 0)).bots.getD 0 default).killed =
        [c2V.index] ∧
      ((arenaUpdate Kc noopStrat (fun _ => 0)
          (ArenaSt.mk [c2S, c2V] [c2shot] 0)).bots.getD 1 default).killed_by =
        some c2S.index := by
  refine ⟨rfl, rfl, by norm_num [Kc], ⟨?_, ?_⟩, ?_, ?_⟩
  · rw [c2_tick]
    show (c2Vend : Robot).health ≤ 0
    norm_num [c2Vend, calmBot]
  · rw [c2_tick]
    rfl
  · rw [c2_tick]
    rfl
  · rw [c2_tick]
    rfl

end
